import Mathlib

/-!
# Shallow embedding of the SAAAM compiler

This file embeds the `SaaamCompiler` class of `src/desktop-exporter.js`
(lexer `tokenize`, recursive-descent parser, `analyzeCode`, `generateNode`,
`compile`, `compileToJS`) as executable Lean definitions, and proves
properties about them.

Modelling conventions:
* JS strings are Lean `String`s (ASCII inputs; `code.length` agrees with the
  JS UTF-16 length on the inputs considered).
* The mutable class state (`this.tokens`, `this.currentToken`, `this.errors`,
  `this.warnings`) is threaded explicitly through a state type `PSt`.
* JS exceptions (`throw new Error(msg)`) are modelled with `Except String`;
  `try/catch` is an explicit handler combinator.
* Unbounded recursion in the parser is modelled with a fuel parameter; fuel
  exhaustion raises an (internal) exception, which the compiler facade
  catches like any other.  Concrete runs are given ample fuel.
-/

namespace SaaamCompiler

/-- A single apostrophe character (U+0027). -/
def squote : Char := Char.ofNat 39

/-- The left curly brace character. -/
def lbrace : Char := Char.ofNat 123

/-- The right curly brace character. -/
def rbrace : Char := Char.ofNat 125

/-- A token, mirroring `interface Token { type; value; position }`. -/
structure Token where
  type : String
  value : String
  position : Nat
deriving DecidableEq, Repr

/-- JS regex word character (`\w`, the class relevant to `\b`):
`[A-Za-z0-9_]`.  `Char.isAlpha`/`Char.isDigit` are exactly the ASCII
ranges `A-Z a-z` / `0-9`. -/
def isWordChar (c : Char) : Bool := c.isAlpha || c.isDigit || c == '_'

/-- JS regex `\s`, restricted to its ASCII part (the sources are ASCII):
space, tab, line feed, carriage return, vertical tab, form feed. -/
def isSpaceJS (c : Char) : Bool :=
  (c == ' ' || c == '\t' || c == '\n' || c == '\r' ||
   c == Char.ofNat 11 || c == Char.ofNat 12)

/-- The reserved words of the `KEYWORD` rule.  Note that the source regex
`/\b(var|const|let|function|if|else|for|while|do|switch|case|break|continue|return|this|new|true|false|null|undefined)\b/`
does NOT list `default`. -/
def keywords : List String :=
  ["var", "const", "let", "function", "if", "else", "for", "while", "do",
   "switch", "case", "break", "continue", "return", "this", "new", "true",
   "false", "null", "undefined"]

/-- The reserved words of the `SAAAM_KEYWORD` rule:
`/\b(vec2|vec3|yield|signal|state|create|step|draw|on_collision)\b/`. -/
def saaamKeywords : List String :=
  ["vec2", "vec3", "yield", "signal", "state", "create", "step", "draw",
   "on_collision"]

/-- The longest run of word characters at the front of the input. -/
def wordRun (s : List Char) : List Char := s.takeWhile isWordChar

/-- Anchored match of `^\b(w1|...|wn)\b` for a list of full words `ws`:
the match succeeds iff the maximal word-character run at the front of the
input is one of the words (each alternative is a whole word followed by a
`\b`, so a proper prefix of the run never satisfies the trailing `\b`). -/
def matchWords (ws : List String) (s : List Char) : Option (List Char) :=
  let w := wordRun s
  if !w.isEmpty && ws.contains (String.mk w) then some w else none

/-- Anchored match of `^\b[a-zA-Z_][a-zA-Z0-9_]*\b`. -/
def matchIdent (s : List Char) : Option (List Char) :=
  match s with
  | [] => none
  | c :: _ => if c.isAlpha || c == '_' then some (wordRun s) else none

/-- Does the match boundary `\b` hold between a word character and the rest
of the input (true at end of input or before a non-word character)? -/
def boundaryOk (rest : List Char) : Bool :=
  match rest with
  | [] => true
  | c :: _ => !isWordChar c

/-- The optional exponent group `(e[+-]?\d+)?` of the number regex, matched
at `r`; `none` when the group cannot match (the regex then proceeds with
the group matching nothing). -/
def expPart (r : List Char) : Option (List Char) :=
  match r with
  | 'e' :: '+' :: r3 =>
    let e := r3.takeWhile Char.isDigit
    if e.isEmpty then none else some ('e' :: '+' :: e)
  | 'e' :: '-' :: r3 =>
    let e := r3.takeWhile Char.isDigit
    if e.isEmpty then none else some ('e' :: '-' :: e)
  | 'e' :: r2 =>
    let e := r2.takeWhile Char.isDigit
    if e.isEmpty then none else some ('e' :: e)
  | _ => none

/-- A `takeWhile` run together with whatever follows it is a prefix of the
whole list when the run is extended by a fixed front. -/
theorem takeWhile_cons_prefix (p : Char → Bool) (a : Char) (l : List Char) :
    a :: l.takeWhile p <+: a :: l :=
  ⟨l.dropWhile p, by simp [List.takeWhile_append_dropWhile]⟩

/-- Two fixed characters in front of a `takeWhile` run. -/
theorem takeWhile_cons2_prefix (p : Char → Bool) (a b : Char) (l : List Char) :
    a :: b :: l.takeWhile p <+: a :: b :: l :=
  ⟨l.dropWhile p, by simp [List.takeWhile_append_dropWhile]⟩

/-- The optional fraction group `(\.\d+)?` of the number regex, matched at
`r1`; `none` when the group cannot match. -/
def fracPart (r1 : List Char) : Option (List Char) :=
  match r1 with
  | '.' :: r =>
    let f := r.takeWhile Char.isDigit
    if f.isEmpty then none else some ('.' :: f)
  | _ => none

/-- The candidate matches of `\d+(\.\d+)?(e[+-]?\d+)?` at `s`, in the regex
engine's backtracking preference order: both optional groups, fraction
only, exponent only, digits only.  (Shortening one of the `\d+` runs
always leaves a digit immediately after the match, failing the trailing
`\b`, so only whole digit runs need be considered.) -/
def numCandidates (s : List Char) : List (List Char) :=
  let d := s.takeWhile Char.isDigit
  (match fracPart (s.drop d.length) with
   | some f =>
     (match expPart (s.drop (d.length + f.length)) with
      | some e => [d ++ f ++ e, d ++ f]
      | none => [d ++ f])
   | none => []) ++
  (match expPart (s.drop d.length) with
   | some e => [d ++ e]
   | none => []) ++ [d]

/-- Anchored match of `^\b\d+(\.\d+)?(e[+-]?\d+)?\b`, including the regex
engine's backtracking over the two optional groups: the candidates are
tried in preference order and the first one whose end satisfies the
trailing `\b` wins. -/
def matchNumber (s : List Char) : Option (List Char) :=
  match s with
  | [] => none
  | c :: _ =>
    if c.isDigit then
      (numCandidates s).find? (fun cand => boundaryOk (s.drop cand.length))
    else none

/-- Match the body of a string literal after the opening quote `q`:
`([^q\\]|\\.)*q`.  A backslash escapes any character except a line
terminator (`.` does not match `\n`/`\r`); the body otherwise stops at the
first unescaped closing quote. -/
def strBody (q : Char) : List Char → Option (List Char)
  | [] => none
  | [c] =>
    -- a final lone character: it must be the closing quote (a backslash
    -- has nothing to escape, and plain content leaves the quote unclosed)
    if c == q then some [q] else none
  | c :: d :: r2 =>
    if c == q then some [q]
    else if c == '\\' then
      if d == '\n' || d == '\r' then none
      else (strBody q r2).map (fun t => c :: d :: t)
    else (strBody q (d :: r2)).map (fun t => c :: t)

/-- The double-quoted alternative `"([^"\\]|\\.)*"` tried at one offset. -/
def dqAt (s : List Char) : Option (List Char) :=
  match s with
  | c :: r => if c == '"' then (strBody '"' r).map (fun t => '"' :: t) else none
  | [] => none

/-- Leftmost match of the double-quoted alternative: `String.match` scans
offsets left to right and this alternative carries no `^` anchor. -/
def dqScan : List Char → Option (List Char)
  | [] => none
  | c :: r =>
    match dqAt (c :: r) with
    | some l => some l
    | none => dqScan r

/-- Match of `^'([^'\\]|\\.)*'|"([^"\\]|\\.)*"` under JS `String.match`
semantics.  `tokenize` prefixes the rule's source with `^`, but the `^`
binds only to the first top-level alternative: the single-quoted form is
anchored at the current offset while the double-quoted form may match at
any later offset (the leftmost one wins; at offset 0 the single-quoted
alternative is tried first). -/
def matchStringLit (s : List Char) : Option (List Char) :=
  match s with
  | c :: r =>
    if c == squote then
      match strBody squote r with
      | some t => some (squote :: t)
      | none => dqScan (c :: r)
    else dqScan (c :: r)
  | [] => none

/-- The character class `[+\-*/=<>!&|^%]` of the operator rule. -/
def opChars : List Char := ['+', '-', '*', '/', '=', '<', '>', '!', '&', '|', '^', '%']

/-- One offset of the operator rule `^[+\-*/=<>!&|^%]=?|&&|\|\||[?:]|\.\.\.`:
the `^` binds only to the first alternative, so the character-class form
applies at the current offset only (`atStart`), while `&&`, `\|\|`, `[?:]`
and `\.\.\.` apply at every offset.  At offset 0 the class form is tried
first, so `&&` at the very start matches as the single operator `&`. -/
def opAt (atStart : Bool) (s : List Char) : Option (List Char) :=
  match s with
  | [] => none
  | c :: rest =>
    if atStart && opChars.contains c then
      some (match rest with
            | '=' :: _ => [c, '=']
            | _ => [c])
    else if c == '&' && rest.head? == some '&' then some ['&', '&']
    else if c == '|' && rest.head? == some '|' then some ['|', '|']
    else if c == '?' || c == ':' then some [c]
    else if (c :: rest).take 3 == ['.', '.', '.'] then some ['.', '.', '.']
    else none

/-- Leftmost match of the unanchored operator alternatives at offsets 1…. -/
def opScan : List Char → Option (List Char)
  | [] => none
  | c :: r =>
    match opAt false (c :: r) with
    | some l => some l
    | none => opScan r

/-- Match of the operator rule under JS `String.match` semantics: try all
five alternatives at offset 0, then the four unanchored alternatives at
each later offset, returning the leftmost match's text (`match[0]`). -/
def matchOperator (s : List Char) : Option (List Char) :=
  match s with
  | [] => none
  | c :: r =>
    match opAt true (c :: r) with
    | some l => some l
    | none => opScan r

/-- Anchored match of `[.,;()]`. -/
def matchPunct (s : List Char) : Option (List Char) :=
  match s with
  | c :: _ => if c == '.' || c == ',' || c == ';' || c == '(' || c == ')' then some [c] else none
  | [] => none

/-- Anchored match of `[[\]{}]`. -/
def matchBracket (s : List Char) : Option (List Char) :=
  match s with
  | c :: _ => if c == '[' || c == ']' || c == lbrace || c == rbrace then some [c] else none
  | [] => none

/-- Anchored match of `\s+`. -/
def matchWhitespace (s : List Char) : Option (List Char) :=
  let w := s.takeWhile isSpaceJS
  if w.isEmpty then none else some w

/-- Lazy scan to the first `*/` of a block comment body. -/
def blockBody : List Char → Option (List Char)
  | '*' :: '/' :: _ => some ['*', '/']
  | c :: d :: r2 => (blockBody (d :: r2)).map (fun t => c :: t)
  | [_] => none       -- a single character cannot contain the closing `*/`
  | [] => none

/-- One offset of the comment rule `^\/\/.*$|\/\*[\s\S]*?\*\//m`: with the
`m` flag the `^` of the first alternative matches at offset 0 or right
after a line terminator (`atLS`), and its `$` stops before a line
terminator; the block-comment alternative is wholly unanchored. -/
def commentAt (atLS : Bool) (s : List Char) : Option (List Char) :=
  match s with
  | '/' :: '/' :: r =>
    if atLS then
      some ('/' :: '/' :: r.takeWhile (fun c => !(c == '\n' || c == '\r')))
    else none
  | '/' :: '*' :: r => (blockBody r).map (fun t => '/' :: '*' :: t)
  | _ => none

/-- Leftmost match of the comment rule: scan the offsets left to right,
tracking whether the current offset follows a line terminator. -/
def commentScan : Bool → List Char → Option (List Char)
  | _, [] => none
  | atLS, c :: r =>
    match commentAt atLS (c :: r) with
    | some l => some l
    | none => commentScan (c == '\n' || c == '\r') r

/-- Match of the comment rule under JS `String.match` semantics (offset 0
of `remaining` is a line start for the fresh regex).  Note: the `OPERATOR`
rule precedes `COMMENT` in `tokenTypes` and its anchored class contains
`/`, so a `//` or `/*` at the current offset is always taken as operator
`/` first; this rule only fires via its unanchored/multiline alternatives
when every earlier rule fails. -/
def matchComment (s : List Char) : Option (List Char) :=
  commentScan true s

/-- Try the token rules in the order of the source's `tokenTypes` array and
return the first match: `(type, ignore, lexeme)`. -/
def matchFirst (s : List Char) : Option (String × Bool × List Char) :=
  match matchWords keywords s with
  | some l => some ("KEYWORD", false, l)
  | none =>
  match matchWords saaamKeywords s with
  | some l => some ("SAAAM_KEYWORD", false, l)
  | none =>
  match matchIdent s with
  | some l => some ("IDENTIFIER", false, l)
  | none =>
  match matchNumber s with
  | some l => some ("NUMBER", false, l)
  | none =>
  match matchStringLit s with
  | some l => some ("STRING", false, l)
  | none =>
  match matchOperator s with
  | some l => some ("OPERATOR", false, l)
  | none =>
  match matchPunct s with
  | some l => some ("PUNCTUATION", false, l)
  | none =>
  match matchBracket s with
  | some l => some ("BRACKET", false, l)
  | none =>
  match matchWhitespace s with
  | some l => some ("WHITESPACE", true, l)
  | none =>
  match matchComment s with
  | some l => some ("COMMENT", true, l)
  | none => none

/-! ## Soundness of the individual rule matchers: a successful match is
nonempty and no longer than the remaining input.  The fully anchored rules
produce prefixes; the rules with unanchored alternatives (STRING, OPERATOR,
COMMENT) may return text matched at a later offset, which `tokenize`
nevertheless slices off the front. -/

theorem wordRun_prefix (s : List Char) : wordRun s <+: s :=
  List.takeWhile_prefix _

theorem matchWords_sound {ws : List String} {s l : List Char}
    (h : matchWords ws s = some l) : l ≠ [] ∧ l <+: s := by
  unfold matchWords at h
  dsimp only at h
  split at h
  · rename_i hc
    cases h
    have h1 : (wordRun s).isEmpty = false := by
      have := (Bool.and_eq_true _ _).mp hc |>.1
      simpa using this
    refine ⟨?_, wordRun_prefix s⟩
    intro hnil
    rw [hnil] at h1
    simp at h1
  · exact absurd h (by simp)

theorem matchIdent_sound {s l : List Char}
    (h : matchIdent s = some l) : l ≠ [] ∧ l <+: s := by
  unfold matchIdent at h
  split at h
  · exact absurd h (by simp)
  · rename_i c tail
    split at h
    · rename_i hc
      cases h
      have hw : isWordChar c = true := by
        unfold isWordChar
        rcases (Bool.or_eq_true _ _).mp hc with h' | h' <;> simp [h']
      refine ⟨?_, wordRun_prefix _⟩
      unfold wordRun
      simp [List.takeWhile_cons, hw]
    · exact absurd h (by simp)

theorem expPart_sound {r l : List Char} (h : expPart r = some l) :
    l ≠ [] ∧ l <+: r := by
  unfold expPart at h
  split at h
  · -- 'e' :: '+' :: r3
    dsimp only at h
    split at h
    · exact absurd h (by simp)
    · cases h
      exact ⟨by simp, takeWhile_cons2_prefix _ _ _ _⟩
  · -- 'e' :: '-' :: r3
    dsimp only at h
    split at h
    · exact absurd h (by simp)
    · cases h
      exact ⟨by simp, takeWhile_cons2_prefix _ _ _ _⟩
  · -- 'e' :: r2 (r2 not starting with a sign)
    dsimp only at h
    split at h
    · exact absurd h (by simp)
    · cases h
      exact ⟨by simp, takeWhile_cons_prefix _ _ _⟩
  · exact absurd h (by simp)

theorem fracPart_sound {r1 l : List Char} (h : fracPart r1 = some l) :
    l ≠ [] ∧ l <+: r1 := by
  unfold fracPart at h
  split at h
  · dsimp only at h
    split at h
    · exact absurd h (by simp)
    · cases h
      exact ⟨by simp, takeWhile_cons_prefix _ _ _⟩
  · exact absurd h (by simp)

/-- A `takeWhile` run followed by the `drop` of its length reassembles the
list. -/
theorem takeWhile_append_drop (p : Char → Bool) (l : List Char) :
    l.takeWhile p ++ l.drop (l.takeWhile p).length = l := by
  induction l with
  | nil => simp
  | cons c r ih =>
    simp only [List.takeWhile_cons]
    split
    · simpa using ih
    · simp

theorem pref_append_left {x l₁ l₂ : List Char} (h : l₁ <+: l₂) :
    x ++ l₁ <+: x ++ l₂ := by
  obtain ⟨w, hw⟩ := h
  exact ⟨w, by rw [List.append_assoc, hw]⟩

/-- Gluing prefixes: a prefix of `r` followed by a prefix of the rest of
`r` is a prefix of `r`. -/
theorem pref_glue {f r e : List Char} (hf : f <+: r)
    (he : e <+: r.drop f.length) : f ++ e <+: r := by
  obtain ⟨w, hw⟩ := hf
  have hdrop : r.drop f.length = w := by rw [← hw]; simp
  rw [← hw]
  exact pref_append_left (hdrop ▸ he)

theorem numCandidates_sound (s : List Char) :
    ∀ x ∈ numCandidates s,
      (s.takeWhile Char.isDigit ≠ [] → x ≠ []) ∧ x <+: s := by
  intro x hx
  unfold numCandidates at hx
  dsimp only at hx
  have hdpre : s.takeWhile Char.isDigit <+: s := List.takeWhile_prefix _
  have hr1 : s.takeWhile Char.isDigit ++
      s.drop (s.takeWhile Char.isDigit).length = s := takeWhile_append_drop _ _
  revert hx hdpre hr1
  generalize s.takeWhile Char.isDigit = d
  intro hx hdpre hr1
  have hglue : ∀ t : List Char, t <+: s.drop d.length → d ++ t <+: s := by
    intro t ht
    have := pref_append_left (x := d) ht
    rwa [hr1] at this
  rcases hfp : fracPart (s.drop d.length) with _ | f <;>
    rw [hfp] at hx <;> dsimp only at hx
  · -- no fraction group
    rcases hep : expPart (s.drop d.length) with _ | e <;>
      rw [hep] at hx <;> dsimp only at hx
    · fin_cases hx
      exact ⟨fun h => h, hdpre⟩
    · have h1 := hglue e (expPart_sound hep).2
      fin_cases hx
      · exact ⟨fun h => by simp [h], h1⟩
      · exact ⟨fun h => h, hdpre⟩
  · -- fraction group matched
    have hfpre := (fracPart_sound hfp).2
    have hdfpre : d ++ f <+: s := hglue f hfpre
    have hdrop2 : s.drop (d.length + f.length) =
        (s.drop d.length).drop f.length := by
      rw [List.drop_drop, Nat.add_comm]
    rcases hep : expPart (s.drop (d.length + f.length)) with _ | e <;>
      rw [hep] at hx <;> dsimp only at hx
    · rcases hep2 : expPart (s.drop d.length) with _ | e2 <;>
        rw [hep2] at hx <;> dsimp only at hx
      · fin_cases hx
        · exact ⟨fun h => by simp [h], hdfpre⟩
        · exact ⟨fun h => h, hdpre⟩
      · have h2 := hglue e2 (expPart_sound hep2).2
        fin_cases hx
        · exact ⟨fun h => by simp [h], hdfpre⟩
        · exact ⟨fun h => by simp [h], h2⟩
        · exact ⟨fun h => h, hdpre⟩
    · have hfepre : f ++ e <+: s.drop d.length :=
        pref_glue hfpre (hdrop2 ▸ (expPart_sound hep).2)
      have hdfe : d ++ f ++ e <+: s := by
        simpa [List.append_assoc] using hglue (f ++ e) hfepre
      rcases hep2 : expPart (s.drop d.length) with _ | e2 <;>
        rw [hep2] at hx <;> dsimp only at hx
      · fin_cases hx
        · exact ⟨fun h => by simp [h], hdfe⟩
        · exact ⟨fun h => by simp [h], hdfpre⟩
        · exact ⟨fun h => h, hdpre⟩
      · have h2 := hglue e2 (expPart_sound hep2).2
        fin_cases hx
        · exact ⟨fun h => by simp [h], hdfe⟩
        · exact ⟨fun h => by simp [h], hdfpre⟩
        · exact ⟨fun h => by simp [h], h2⟩
        · exact ⟨fun h => h, hdpre⟩

theorem matchNumber_sound {s l : List Char} (h : matchNumber s = some l) :
    l ≠ [] ∧ l <+: s := by
  unfold matchNumber at h
  split at h
  · exact absurd h (by simp)
  · rename_i c tail
    split at h
    · rename_i hdig
      obtain ⟨hne, hpre⟩ :=
        numCandidates_sound (c :: tail) l (List.mem_of_find?_eq_some h)
      refine ⟨hne ?_, hpre⟩
      simp [List.takeWhile_cons, hdig]
    · exact absurd h (by simp)

theorem strBody_soundN {q : Char} :
    ∀ (n : Nat) (l t : List Char), l.length ≤ n →
      strBody q l = some t → t ≠ [] ∧ t <+: l := by
  intro n
  induction n with
  | zero =>
    intro l t hl h
    match l with
    | [] => simp [strBody] at h
    | c :: r => simp at hl
  | succ n ih =>
    intro l t hl h
    match l with
    | [] => simp [strBody] at h
    | [c] =>
      unfold strBody at h
      split at h
      · rename_i hq
        cases h
        have hc : c = q := by simpa using hq
        exact ⟨by simp, by rw [hc]⟩
      · exact absurd h (by simp)
    | c :: d :: r2 =>
      unfold strBody at h
      split at h
      · -- c == q
        rename_i hq
        cases h
        have hc : c = q := by simpa using hq
        exact ⟨by simp, by rw [hc]; exact ⟨d :: r2, rfl⟩⟩
      · split at h
        · -- c == '\\'
          split at h
          · exact absurd h (by simp)
          · rcases Option.map_eq_some'.mp h with ⟨t', ht', rfl⟩
            have hlen : r2.length ≤ n := by
              simp only [List.length_cons] at hl; omega
            obtain ⟨hne, ⟨w, hw⟩⟩ := ih r2 t' hlen ht'
            exact ⟨by simp, ⟨w, by simp [hw]⟩⟩
        · -- ordinary character
          rcases Option.map_eq_some'.mp h with ⟨t', ht', rfl⟩
          have hlen : (d :: r2).length ≤ n := by
            simp only [List.length_cons] at hl ⊢; omega
          obtain ⟨hne, ⟨w, hw⟩⟩ := ih (d :: r2) t' hlen ht'
          exact ⟨by simp, ⟨w, by simp [hw]⟩⟩

theorem strBody_sound {q : Char} {l t : List Char} (h : strBody q l = some t) :
    t ≠ [] ∧ t <+: l :=
  strBody_soundN l.length l t le_rfl h

theorem dqAt_sound {s l : List Char} (h : dqAt s = some l) :
    l ≠ [] ∧ l.length ≤ s.length := by
  unfold dqAt at h
  split at h
  · split at h
    · rcases Option.map_eq_some'.mp h with ⟨t, ht, rfl⟩
      have hlen := (strBody_sound ht).2.length_le
      refine ⟨by simp, ?_⟩
      simp only [List.length_cons]
      omega
    · exact absurd h (by simp)
  · exact absurd h (by simp)

theorem dqScan_sound : ∀ {s l : List Char}, dqScan s = some l →
    l ≠ [] ∧ l.length ≤ s.length := by
  intro s
  induction s with
  | nil => intro l h; simp [dqScan] at h
  | cons c r ih =>
    intro l h
    unfold dqScan at h
    cases hd : dqAt (c :: r) with
    | some l2 =>
      rw [hd] at h
      dsimp only at h
      cases h
      exact dqAt_sound hd
    | none =>
      rw [hd] at h
      dsimp only at h
      obtain ⟨h1, h2⟩ := ih h
      refine ⟨h1, ?_⟩
      simp only [List.length_cons]
      omega

theorem matchStringLit_sound {s l : List Char}
    (h : matchStringLit s = some l) : l ≠ [] ∧ l.length ≤ s.length := by
  unfold matchStringLit at h
  split at h
  · rename_i c r
    split at h
    · cases hb : strBody squote r with
      | some t =>
        rw [hb] at h
        dsimp only at h
        cases h
        have hlen := (strBody_sound hb).2.length_le
        refine ⟨by simp, ?_⟩
        simp only [List.length_cons]
        omega
      | none =>
        rw [hb] at h
        dsimp only at h
        exact dqScan_sound h
    · exact dqScan_sound h
  · exact absurd h (by simp)

theorem opAt_sound {b : Bool} {s l : List Char} (h : opAt b s = some l) :
    l ≠ [] ∧ l.length ≤ s.length := by
  unfold opAt at h
  split at h
  · exact absurd h (by simp)
  · rename_i c rest
    split at h
    · cases h
      split
      · refine ⟨by simp, ?_⟩
        simp only [List.length_cons, List.length_nil]
        omega
      · refine ⟨by simp, ?_⟩
        simp only [List.length_cons, List.length_nil]
        omega
    · split at h
      · rename_i hcond
        cases h
        have h2 : rest.head? = some '&' := by
          simpa using (Bool.and_eq_true .. |>.mp hcond).2
        match rest, h2 with
        | r0 :: rs, _ =>
          refine ⟨by simp, ?_⟩
          simp only [List.length_cons, List.length_nil]
          omega
      · split at h
        · rename_i hcond
          cases h
          have h2 : rest.head? = some '|' := by
            simpa using (Bool.and_eq_true .. |>.mp hcond).2
          match rest, h2 with
          | r0 :: rs, _ =>
            refine ⟨by simp, ?_⟩
            simp only [List.length_cons, List.length_nil]
            omega
        · split at h
          · cases h
            refine ⟨by simp, ?_⟩
            simp only [List.length_cons, List.length_nil]
            omega
          · split at h
            · rename_i hcond
              cases h
              have h3 : (c :: rest).take 3 = ['.', '.', '.'] := by
                simpa using hcond
              have hl3 := congrArg List.length h3
              simp only [List.length_take, List.length_cons] at hl3
              refine ⟨by simp, ?_⟩
              simp only [List.length_cons, List.length_nil]
              omega
            · exact absurd h (by simp)

theorem opScan_sound : ∀ {s l : List Char}, opScan s = some l →
    l ≠ [] ∧ l.length ≤ s.length := by
  intro s
  induction s with
  | nil => intro l h; simp [opScan] at h
  | cons c r ih =>
    intro l h
    unfold opScan at h
    cases hd : opAt false (c :: r) with
    | some l2 =>
      rw [hd] at h
      dsimp only at h
      cases h
      exact opAt_sound hd
    | none =>
      rw [hd] at h
      dsimp only at h
      obtain ⟨h1, h2⟩ := ih h
      refine ⟨h1, ?_⟩
      simp only [List.length_cons]
      omega

theorem matchOperator_sound {s l : List Char}
    (h : matchOperator s = some l) : l ≠ [] ∧ l.length ≤ s.length := by
  unfold matchOperator at h
  split at h
  · exact absurd h (by simp)
  · rename_i c r
    cases hd : opAt true (c :: r) with
    | some l2 =>
      rw [hd] at h
      dsimp only at h
      cases h
      exact opAt_sound hd
    | none =>
      rw [hd] at h
      dsimp only at h
      obtain ⟨h1, h2⟩ := opScan_sound h
      refine ⟨h1, ?_⟩
      simp only [List.length_cons]
      omega

theorem matchPunct_sound {s l : List Char}
    (h : matchPunct s = some l) : l ≠ [] ∧ l <+: s := by
  unfold matchPunct at h
  split at h
  · split at h
    · cases h
      exact ⟨by simp, ⟨_, rfl⟩⟩
    · exact absurd h (by simp)
  · exact absurd h (by simp)

theorem matchBracket_sound {s l : List Char}
    (h : matchBracket s = some l) : l ≠ [] ∧ l <+: s := by
  unfold matchBracket at h
  split at h
  · split at h
    · cases h
      exact ⟨by simp, ⟨_, rfl⟩⟩
    · exact absurd h (by simp)
  · exact absurd h (by simp)

theorem matchWhitespace_sound {s l : List Char}
    (h : matchWhitespace s = some l) : l ≠ [] ∧ l <+: s := by
  unfold matchWhitespace at h
  dsimp only at h
  split at h
  · exact absurd h (by simp)
  · rename_i hne
    cases h
    refine ⟨?_, List.takeWhile_prefix _⟩
    intro hnil
    rw [hnil] at hne
    simp at hne

theorem blockBody_soundN :
    ∀ (n : Nat) (l t : List Char), l.length ≤ n →
      blockBody l = some t → t ≠ [] ∧ t <+: l := by
  intro n
  induction n with
  | zero =>
    intro l t hl h
    match l with
    | [] => simp [blockBody] at h
    | c :: r => simp at hl
  | succ n ih =>
    intro l t hl h
    unfold blockBody at h
    split at h
    · cases h
      exact ⟨by simp, ⟨_, rfl⟩⟩
    · rename_i ch d r2 hno
      rcases Option.map_eq_some'.mp h with ⟨t', ht', rfl⟩
      have hlen : (d :: r2).length ≤ n := by
        simp only [List.length_cons] at hl ⊢; omega
      obtain ⟨_, ⟨w, hw⟩⟩ := ih (d :: r2) t' hlen ht'
      exact ⟨by simp, ⟨w, by simp [hw]⟩⟩
    · exact absurd h (by simp)
    · exact absurd h (by simp)

theorem commentAt_sound {b : Bool} {s l : List Char}
    (h : commentAt b s = some l) : l ≠ [] ∧ l.length ≤ s.length := by
  unfold commentAt at h
  split at h
  · rename_i r
    split at h
    · cases h
      have hw : (r.takeWhile (fun c => !(c == '\n' || c == '\r'))).length ≤
          r.length := (List.takeWhile_prefix _).length_le
      refine ⟨by simp, ?_⟩
      simp only [List.length_cons]
      omega
    · exact absurd h (by simp)
  · rename_i r
    rcases Option.map_eq_some'.mp h with ⟨t, ht, rfl⟩
    have hlen := (blockBody_soundN r.length r t le_rfl ht).2.length_le
    refine ⟨by simp, ?_⟩
    simp only [List.length_cons]
    omega
  · exact absurd h (by simp)

theorem commentScan_sound : ∀ {s : List Char} {b : Bool} {l : List Char},
    commentScan b s = some l → l ≠ [] ∧ l.length ≤ s.length := by
  intro s
  induction s with
  | nil => intro b l h; simp [commentScan] at h
  | cons c r ih =>
    intro b l h
    unfold commentScan at h
    cases hd : commentAt b (c :: r) with
    | some l2 =>
      rw [hd] at h
      dsimp only at h
      cases h
      exact commentAt_sound hd
    | none =>
      rw [hd] at h
      dsimp only at h
      obtain ⟨h1, h2⟩ := ih h
      refine ⟨h1, ?_⟩
      simp only [List.length_cons]
      omega

theorem matchComment_sound {s l : List Char}
    (h : matchComment s = some l) : l ≠ [] ∧ l.length ≤ s.length :=
  commentScan_sound h

/-- A successful rule match always produces a nonempty `match[0]` text no
longer than the remaining input (the match is a contiguous slice of it):
`tokenize` consumes `match[0].length` characters, so the loop progresses
and never over-consumes. -/
theorem matchFirst_sound {s : List Char} {ty : String} {ig : Bool}
    {l : List Char} (h : matchFirst s = some (ty, ig, l)) :
    l ≠ [] ∧ l.length ≤ s.length := by
  unfold matchFirst at h
  split at h
  · cases h
    obtain ⟨h1, h2⟩ := matchWords_sound (by assumption)
    exact ⟨h1, h2.length_le⟩
  split at h
  · cases h
    obtain ⟨h1, h2⟩ := matchWords_sound (by assumption)
    exact ⟨h1, h2.length_le⟩
  split at h
  · cases h
    obtain ⟨h1, h2⟩ := matchIdent_sound (by assumption)
    exact ⟨h1, h2.length_le⟩
  split at h
  · cases h
    obtain ⟨h1, h2⟩ := matchNumber_sound (by assumption)
    exact ⟨h1, h2.length_le⟩
  split at h
  · cases h; exact matchStringLit_sound (by assumption)
  split at h
  · cases h; exact matchOperator_sound (by assumption)
  split at h
  · cases h
    obtain ⟨h1, h2⟩ := matchPunct_sound (by assumption)
    exact ⟨h1, h2.length_le⟩
  split at h
  · cases h
    obtain ⟨h1, h2⟩ := matchBracket_sound (by assumption)
    exact ⟨h1, h2.length_le⟩
  split at h
  · cases h
    obtain ⟨h1, h2⟩ := matchWhitespace_sound (by assumption)
    exact ⟨h1, h2.length_le⟩
  split at h
  · cases h; exact matchComment_sound (by assumption)
  · exact absurd h (by simp)

/-- One `match[0]` length is at most the remaining input length. -/
theorem matchFirst_le {s : List Char} {ty : String} {ig : Bool}
    {l : List Char} (h : matchFirst s = some (ty, ig, l)) :
    l.length ≤ s.length :=
  (matchFirst_sound h).2

/-- The scanning loop of `tokenize`: repeatedly match the rules at the
current offset; on a match, emit a token (unless the rule is ignored) and
advance by the lexeme length; otherwise record an "Unexpected character"
error and advance by one.  Returns the emitted tokens and the recorded
error messages, in order.

The first argument is structural-recursion fuel: every step consumes at
least one input character (`matchFirst_sound`), so with `fuel =
input length` — as supplied by `tokenize` — the middle (fuel-exhaustion)
branch is unreachable (`tokenizeAux_fuel_irrelevant`). -/
def tokenizeAux : Nat → List Char → Nat → List Token × List String
  | _, [], _ => ([], [])
  | 0, _ :: _, _ => ([], [])
  | fuel + 1, c :: rest, pos =>
    match matchFirst (c :: rest) with
    | none =>
      let p := tokenizeAux fuel rest (pos + 1)
      (p.1, ("Unexpected character at position " ++ toString pos ++ ": \x27" ++
             String.mk [c] ++ "\x27") :: p.2)
    | some (ty, ig, lex) =>
      let p := tokenizeAux fuel ((c :: rest).drop lex.length) (pos + lex.length)
      (if ig then p.1
       else { type := ty, value := String.mk lex, position := pos } :: p.1, p.2)

theorem tokenizeAux_nil (fuel pos : Nat) :
    tokenizeAux fuel [] pos = ([], []) := by
  cases fuel <;> rfl

/-- The fuel argument of `tokenizeAux` is irrelevant as soon as it covers
the input length: the loop consumes at least one character per step. -/
theorem tokenizeAux_fuel_irrelevant :
    ∀ (fuel₁ fuel₂ : Nat) (rem : List Char) (pos : Nat),
      rem.length ≤ fuel₁ → rem.length ≤ fuel₂ →
      tokenizeAux fuel₁ rem pos = tokenizeAux fuel₂ rem pos := by
  intro fuel₁
  induction fuel₁ using Nat.strong_induction_on with
  | _ fuel₁ ih =>
    intro fuel₂ rem pos h1 h2
    match fuel₁, fuel₂, rem with
    | _, _, [] => rw [tokenizeAux_nil, tokenizeAux_nil]
    | 0, _, c :: rest => simp at h1
    | _ + 1, 0, c :: rest => simp at h2
    | f1 + 1, f2 + 1, c :: rest =>
      simp only [List.length_cons] at h1 h2
      rw [tokenizeAux, tokenizeAux]
      cases hm : matchFirst (c :: rest) with
      | none =>
        have := ih f1 (by omega) f2 rest (pos + 1) (by omega) (by omega)
        simp [this]
      | some v =>
        obtain ⟨ty, ig, lex⟩ := v
        have hne := (matchFirst_sound hm).1
        have hlex : 1 ≤ lex.length := by
          cases lex with
          | nil => exact absurd rfl hne
          | cons a b => simp
        have hd : ((c :: rest).drop lex.length).length ≤ f1 := by
          simp only [List.length_drop, List.length_cons]
          omega
        have hd2 : ((c :: rest).drop lex.length).length ≤ f2 := by
          simp only [List.length_drop, List.length_cons]
          omega
        have := ih f1 (by omega) f2 ((c :: rest).drop lex.length)
          (pos + lex.length) hd hd2
        simp [this]

/-- `tokenize(code)`: run the scanning loop over the whole source and
append the final `EOF` token at `position = code.length`.  The second
component is the list of lexer error messages (the source appends them to
`this.errors`). -/
def tokenize (code : String) : List Token × List String :=
  let p := tokenizeAux code.data.length code.data 0
  (p.1 ++ [{ type := "EOF", value := "", position := code.length }], p.2)

/-! ## The AST

`ASTNode` in the source is a dynamic object with a string `type`
discriminator; the closed set of shapes actually constructed by the parser
is captured by this inductive type.  Field order matches the order of the
object-literal fields in the source (the analyser's generic traversal
visits fields in that insertion order). -/

/-- The possible `value` payloads of a `Literal` node.  A numeric literal
stores the lexeme from which the source computes `Number.parseFloat(...)`;
the runs in this development only use numerals that `parseFloat`/`toString`
round-trip verbatim, so the lexeme is also the emitted text. -/
inductive JsVal where
  | num (raw : String)
  | str (s : String)
  | bool (b : Bool)
  | null
deriving DecidableEq, Repr

inductive AST where
  | program (body : List AST)
  | variableDeclaration (kind identifier : String) (init : Option AST)
  | functionDefinition (name : String) (params : List String) (body : AST)
  | block (statements : List AST)
  | ifStatement (condition consequent : AST) (alternate : Option AST)
  | forLoop (init : Option AST) (condition : Option AST) (update : Option AST)
      (body : AST)
  | whileLoop (condition body : AST)
  | doWhileLoop (body condition : AST)
  | switchStatement (discriminant : AST) (cases : List AST)
  | switchCase (test : Option AST) (consequent : List AST)
  | returnStatement (argument : Option AST)
  | breakStatement
  | continueStatement
  | emptyStatement
  | expressionStatement (expression : AST)
  | assignmentExpression (operator : String) (left right : AST)
  | binaryExpression (operator : String) (left right : AST)
  | unaryExpression (operator : String) (argument : AST)
  | callExpression (callee : AST) (arguments : List AST)
  /-- `MemberExpression` with `computed: false`: the property is a name. -/
  | memberName (object : AST) (property : String)
  /-- `MemberExpression` with `computed: true`: the property is a node. -/
  | memberIndex (object : AST) (property : AST)
  | thisExpression
  | vec2Expression (x y : AST)
  | vec3Expression (x y z : AST)
  | objectExpression (properties : List AST)
  /-- `Property { key, value, computed }` of an object literal; `key` is
  always a node (string keys are wrapped as `Identifier`s by the parser). -/
  | property (key value : AST) (computed : Bool)
  | arrayExpression (elements : List (Option AST))
  | identifier (name : String) (isPredefined : Bool)
  | literal (value : JsVal) (raw : Option String)
deriving Repr

/-! ## Parser state and monad -/

/-- The mutable compiler state seen by the parser: the token array, the
cursor `this.currentToken`, and the diagnostic lists. -/
structure PSt where
  tokens : List Token
  cur : Nat
  errors : List String
  warnings : List String
deriving Repr

/-- The parser computations: state plus JS exceptions.  The state is kept
even when an exception propagates (the JS `this` keeps its mutations). -/
def PM (α : Type) := PSt → Except String α × PSt

def PM.pure {α} (a : α) : PM α := fun s => (Except.ok a, s)

def PM.bind {α β} (x : PM α) (f : α → PM β) : PM β := fun s =>
  match x s with
  | (Except.ok a, s') => f a s'
  | (Except.error e, s') => (Except.error e, s')

instance : Monad PM where
  pure := PM.pure
  bind := PM.bind

/-- `throw new Error(msg)`. -/
def throwP {α} (msg : String) : PM α := fun s => (Except.error msg, s)

/-- `try x catch (e) { handler e }`. -/
def tryCatchP {α} (x : PM α) (handler : String → PM α) : PM α := fun s =>
  match x s with
  | (Except.ok a, s') => (Except.ok a, s')
  | (Except.error e, s') => handler e s'

def getP : PM PSt := fun s => (Except.ok s, s)

def modifyP (f : PSt → PSt) : PM Unit := fun s => (Except.ok (), f s)

/-- `this.addError(message)`. -/
def addErrorP (m : String) : PM Unit :=
  modifyP fun s => { s with errors := s.errors ++ [m] }

/-- `this.addWarning(message)`. -/
def addWarningP (m : String) : PM Unit :=
  modifyP fun s => { s with warnings := s.warnings ++ [m] }

/-- The token used when `this.tokens[this.currentToken]` is read out of
range (unreachable for `tokenize` output, which always ends with `EOF`). -/
def oobToken : Token := { type := "EOF", value := "", position := 0 }

/-- `this.peek()`. -/
def peekP : PM Token := fun s => (Except.ok (s.tokens.getD s.cur oobToken), s)

/-- `this.match(type)` (type only). -/
def matchT (ty : String) : PM Bool := do
  let t ← peekP
  pure (t.type == ty)

/-- `this.match(type, value)`. -/
def matchTV (ty v : String) : PM Bool := do
  let t ← peekP
  pure (t.type == ty && t.value == v)

/-- `this.consume()` with no expectations: return the current token and
advance. -/
def consumeAny : PM Token := fun s =>
  (Except.ok (s.tokens.getD s.cur oobToken), { s with cur := s.cur + 1 })

/-- `this.consume(type)`: record an error and throw if the current token's
type differs. -/
def consumeT (ty : String) : PM Token := do
  let t ← peekP
  if t.type == ty then consumeAny
  else do
    let msg := "Expected token of type " ++ ty ++ ", but got " ++ t.type
    addErrorP msg
    throwP msg

/-- `this.consume(type, value)`: check the type, then the value. -/
def consumeTV (ty v : String) : PM Token := do
  let t ← peekP
  if !(t.type == ty) then do
    let msg := "Expected token of type " ++ ty ++ ", but got " ++ t.type
    addErrorP msg
    throwP msg
  else if !(t.value == v) then do
    let msg := "Expected token with value " ++ v ++ ", but got " ++ t.value
    addErrorP msg
    throwP msg
  else consumeAny

/-- `this.predefinedVariables`. -/
def predefinedVariables : List String :=
  ["position", "velocity", "size", "color",
   "rotation", "scale", "visible", "active",
   "tag", "components", "GRAVITY", "FRICTION",
   "MAX_FALL_SPEED", "delta_time", "current_time", "game_time"]

/-- `this.predefinedFunctions`. -/
def predefinedFunctions : List String :=
  ["create", "step", "draw", "on_collision",
   "keyboard_check", "keyboard_check_pressed", "keyboard_check_released",
   "mouse_check", "mouse_check_pressed", "mouse_check_released",
   "draw_sprite", "draw_text", "draw_rectangle", "draw_circle", "draw_line",
   "play_sound", "play_music", "stop_sound", "stop_music",
   "vec2", "vec3", "point_distance", "check_collision",
   "create_object", "destroy_object", "find_object", "find_nearest"]

/-- `parseMemberExpression(object)`: `.name` access (`computed: false`). -/
def parseMemberExpression (object : AST) : PM AST := do
  let _ ← consumeTV "PUNCTUATION" "."
  let p ← consumeT "IDENTIFIER"
  pure (AST.memberName object p.value)

/-- `parseBreakStatement()`. -/
def parseBreakStatement : PM AST := do
  let _ ← consumeTV "KEYWORD" "break"
  -- Make semicolons optional - add warning instead of error
  let m ← matchTV "PUNCTUATION" ";"
  if m then do
    let _ ← consumeAny
    pure AST.breakStatement
  else do
    addWarningP "Missing semicolon after break statement"
    pure AST.breakStatement

/-- `parseContinueStatement()`. -/
def parseContinueStatement : PM AST := do
  let _ ← consumeTV "KEYWORD" "continue"
  let m ← matchTV "PUNCTUATION" ";"
  if m then do
    let _ ← consumeAny
    pure AST.continueStatement
  else do
    addWarningP "Missing semicolon after continue statement"
    pure AST.continueStatement

/-- The record of all mutually recursive parser functions at one fuel
level.  The parser's unbounded mutual recursion is modelled by the
fuel-indexed family `parsersAt`: level `fuel + 1` performs one step of
every function, with recursive calls taken from level `fuel` (this
primitive-recursive form evaluates lazily).  Fuel exhaustion throws
`"out of fuel"`, a modelling artefact with no source counterpart: a
computation that fails this way at EVERY fuel bound corresponds to a
non-terminating run of the unbounded original (see `objLoop_stuck`), not
to a JS exception. -/
structure ParserRec where
  parseProgram : PM AST
  parseProgramLoop : List AST → PM (List AST)
  skipToBoundary : PM Unit
  parseVariableDeclaration : PM AST
  parseFunctionDefinition : PM AST
  paramsLoop : List String → PM (List String)
  parseBlock : PM AST
  blockLoop : List AST → PM (List AST)
  parseStatement : PM AST
  parseIfStatement : PM AST
  parseForLoop : PM AST
  parseWhileLoop : PM AST
  parseDoWhileLoop : PM AST
  parseSwitchStatement : PM AST
  switchLoop : List AST → Option AST → PM (List AST × Option AST)
  caseConsLoop : List AST → PM (List AST)
  defaultConsLoop : List AST → PM (List AST)
  parseReturnStatement : PM AST
  parseExpression : PM AST
  parseAssignment : PM AST
  parseLogicalOr : PM AST
  orLoop : AST → PM AST
  parseLogicalAnd : PM AST
  andLoop : AST → PM AST
  parseEquality : PM AST
  eqLoop : AST → PM AST
  parseComparison : PM AST
  cmpLoop : AST → PM AST
  parseAdditive : PM AST
  addLoop : AST → PM AST
  parseMultiplicative : PM AST
  mulLoop : AST → PM AST
  parseUnary : PM AST
  parseCallOrMember : PM AST
  comLoop : AST → PM AST
  parseCallExpression : AST → PM AST
  argsLoop : List AST → PM (List AST)
  parseIndexExpression : AST → PM AST
  parseObjectLiteral : PM AST
  objLoop : List AST → PM (List AST)
  objValue : List AST → AST → Option String → Bool → PM (List AST)
  parseArrayLiteral : PM AST
  arrLoop : List (Option AST) → PM (List (Option AST))
  parsePrimary : PM AST

/-- Fuel level 0: every parser function is out of fuel. -/
def parsersZero : ParserRec where
  parseProgram := throwP "out of fuel"
  parseProgramLoop := fun _ => throwP "out of fuel"
  skipToBoundary := throwP "out of fuel"
  parseVariableDeclaration := throwP "out of fuel"
  parseFunctionDefinition := throwP "out of fuel"
  paramsLoop := fun _ => throwP "out of fuel"
  parseBlock := throwP "out of fuel"
  blockLoop := fun _ => throwP "out of fuel"
  parseStatement := throwP "out of fuel"
  parseIfStatement := throwP "out of fuel"
  parseForLoop := throwP "out of fuel"
  parseWhileLoop := throwP "out of fuel"
  parseDoWhileLoop := throwP "out of fuel"
  parseSwitchStatement := throwP "out of fuel"
  switchLoop := fun _ _ => throwP "out of fuel"
  caseConsLoop := fun _ => throwP "out of fuel"
  defaultConsLoop := fun _ => throwP "out of fuel"
  parseReturnStatement := throwP "out of fuel"
  parseExpression := throwP "out of fuel"
  parseAssignment := throwP "out of fuel"
  parseLogicalOr := throwP "out of fuel"
  orLoop := fun _ => throwP "out of fuel"
  parseLogicalAnd := throwP "out of fuel"
  andLoop := fun _ => throwP "out of fuel"
  parseEquality := throwP "out of fuel"
  eqLoop := fun _ => throwP "out of fuel"
  parseComparison := throwP "out of fuel"
  cmpLoop := fun _ => throwP "out of fuel"
  parseAdditive := throwP "out of fuel"
  addLoop := fun _ => throwP "out of fuel"
  parseMultiplicative := throwP "out of fuel"
  mulLoop := fun _ => throwP "out of fuel"
  parseUnary := throwP "out of fuel"
  parseCallOrMember := throwP "out of fuel"
  comLoop := fun _ => throwP "out of fuel"
  parseCallExpression := fun _ => throwP "out of fuel"
  argsLoop := fun _ => throwP "out of fuel"
  parseIndexExpression := fun _ => throwP "out of fuel"
  parseObjectLiteral := throwP "out of fuel"
  objLoop := fun _ => throwP "out of fuel"
  objValue := fun _ _ _ _ => throwP "out of fuel"
  parseArrayLiteral := throwP "out of fuel"
  arrLoop := fun _ => throwP "out of fuel"
  parsePrimary := throwP "out of fuel"

/-- One step of every parser function; recursive calls use `rec`,
one fuel level down.  Each body is the `fuel + 1` case of the
corresponding source function. -/
def parseStep (rec : ParserRec) : ParserRec where
  parseProgram := do
    let body ← rec.parseProgramLoop []
    pure (AST.program body)

  parseProgramLoop := fun body => do
    let t ← peekP
    if t.type == "EOF" then
      pure body
    else do
      let r ← tryCatchP
        (do
          let mv ← matchTV "KEYWORD" "var"
          let mc ← matchTV "KEYWORD" "const"
          let ml ← matchTV "KEYWORD" "let"
          if mv || mc || ml then do
            let d ← rec.parseVariableDeclaration
            pure (some d)
          else do
            let mf ← matchTV "KEYWORD" "function"
            if mf then do
              let d ← rec.parseFunctionDefinition
              pure (some d)
            else do
              let d ← rec.parseStatement
              pure (some d))
        (fun e => do
          addErrorP ("Parse error: " ++ e)
          -- Skip tokens until we find a semicolon or bracket
          rec.skipToBoundary
          let ms ← matchTV "PUNCTUATION" ";"
          let mb ← matchTV "BRACKET" "\x7d"
          if ms || mb then do
            let _ ← consumeAny
            pure none
          else pure none)
      match r with
      | some stmt => rec.parseProgramLoop (body ++ [stmt])
      | none => rec.parseProgramLoop body

  skipToBoundary := do
    let ms ← matchTV "PUNCTUATION" ";"
    let mb ← matchTV "BRACKET" "\x7d"
    let t ← peekP
    if !ms && !mb && !(t.type == "EOF") then do
      let _ ← consumeAny
      rec.skipToBoundary
    else pure ()

  parseVariableDeclaration := do
    let kt ← consumeAny            -- 'var', 'const', or 'let'
    let it ← consumeT "IDENTIFIER"
    let init ← do
      let m ← matchTV "OPERATOR" "="
      if m then do
        let _ ← consumeAny         -- consume '='
        let e ← rec.parseExpression
        pure (some e)
      else pure (none : Option AST)
    -- Make semicolons optional - add warning instead of error
    let m ← matchTV "PUNCTUATION" ";"
    if m then do
      let _ ← consumeAny
      pure (AST.variableDeclaration kt.value it.value init)
    else do
      addWarningP ("Missing semicolon after variable declaration for \x27" ++
        it.value ++ "\x27")
      pure (AST.variableDeclaration kt.value it.value init)

  parseFunctionDefinition := do
    let _ ← consumeTV "KEYWORD" "function"
    let nt ← consumeT "IDENTIFIER"
    let _ ← consumeTV "PUNCTUATION" "("
    let params ← do
      let m ← matchTV "PUNCTUATION" ")"
      if m then pure ([] : List String) else rec.paramsLoop []
    let _ ← consumeTV "PUNCTUATION" ")"
    let body ← rec.parseBlock
    -- Check if this is a SAAAM lifecycle function
    if ["create", "step", "draw", "on_collision"].contains nt.value then do
      if nt.value == "step" && params.isEmpty then
        addWarningP "The \x27step\x27 function should have a \x27deltaTime\x27 parameter for time-based movement"
      if nt.value == "draw" && params.isEmpty then
        addWarningP "The \x27draw\x27 function should have a \x27ctx\x27 parameter for drawing context"
      pure (AST.functionDefinition nt.value params body)
    else
      pure (AST.functionDefinition nt.value params body)

  paramsLoop := fun acc => do
    let pt ← consumeT "IDENTIFIER"
    let acc := acc ++ [pt.value]
    let m ← matchTV "PUNCTUATION" ","
    if m then do
      let _ ← consumeAny
      rec.paramsLoop acc
    else pure acc

  parseBlock := do
    let _ ← consumeTV "BRACKET" "\x7b"
    let stmts ← rec.blockLoop []
    let t ← peekP
    if t.type == "EOF" then do
      addErrorP "Unexpected end of file, expected \x27\x7d\x27"
      throwP "Unexpected end of file"
    else do
      let _ ← consumeTV "BRACKET" "\x7d"
      pure (AST.block stmts)

  blockLoop := fun acc => do
    let m ← matchTV "BRACKET" "\x7d"
    let t ← peekP
    if !m && !(t.type == "EOF") then do
      let s ← rec.parseStatement
      rec.blockLoop (acc ++ [s])
    else pure acc

  parseStatement := do
    let mv ← matchTV "KEYWORD" "var"
    let mc ← matchTV "KEYWORD" "const"
    let ml ← matchTV "KEYWORD" "let"
    if mv || mc || ml then rec.parseVariableDeclaration
    else do
    let m ← matchTV "KEYWORD" "if"
    if m then rec.parseIfStatement
    else do
    let m ← matchTV "KEYWORD" "for"
    if m then rec.parseForLoop
    else do
    let m ← matchTV "KEYWORD" "while"
    if m then rec.parseWhileLoop
    else do
    let m ← matchTV "KEYWORD" "do"
    if m then rec.parseDoWhileLoop
    else do
    let m ← matchTV "KEYWORD" "switch"
    if m then rec.parseSwitchStatement
    else do
    let m ← matchTV "KEYWORD" "return"
    if m then rec.parseReturnStatement
    else do
    let m ← matchTV "KEYWORD" "break"
    if m then parseBreakStatement
    else do
    let m ← matchTV "KEYWORD" "continue"
    if m then parseContinueStatement
    else do
    let m ← matchTV "BRACKET" "\x7b"
    if m then rec.parseBlock
    else do
    let m ← matchTV "PUNCTUATION" ";"
    if m then do
      let _ ← consumeAny
      pure AST.emptyStatement
    else do
      -- Default: expression statement
      let expr ← rec.parseExpression
      -- Make semicolons optional - add warning instead of error
      let m ← matchTV "PUNCTUATION" ";"
      if m then do
        let _ ← consumeAny
        pure (AST.expressionStatement expr)
      else do
        addWarningP "Missing semicolon after expression"
        pure (AST.expressionStatement expr)

  parseIfStatement := do
    let _ ← consumeTV "KEYWORD" "if"
    let _ ← consumeTV "PUNCTUATION" "("
    let condition ← rec.parseExpression
    let _ ← consumeTV "PUNCTUATION" ")"
    let consequent ← rec.parseStatement
    let me ← matchTV "KEYWORD" "else"
    if me then do
      let _ ← consumeAny
      let alternate ← rec.parseStatement
      pure (AST.ifStatement condition consequent (some alternate))
    else
      pure (AST.ifStatement condition consequent none)

  parseForLoop := do
    let _ ← consumeTV "KEYWORD" "for"
    let _ ← consumeTV "PUNCTUATION" "("
    let init ← do
      let ms ← matchTV "PUNCTUATION" ";"
      if !ms then do
        let mv ← matchTV "KEYWORD" "var"
        let mc ← matchTV "KEYWORD" "const"
        let ml ← matchTV "KEYWORD" "let"
        if mv || mc || ml then do
          let d ← rec.parseVariableDeclaration
          pure (some d)
        else do
          let e ← rec.parseExpression
          let _ ← consumeTV "PUNCTUATION" ";"
          pure (some e)
      else do
        let _ ← consumeTV "PUNCTUATION" ";"
        pure (none : Option AST)
    let condition ← do
      let ms ← matchTV "PUNCTUATION" ";"
      if !ms then do
        let e ← rec.parseExpression
        pure e
      else
        -- No condition specified, default to true
        pure (AST.literal (JsVal.bool true) none)
    let _ ← consumeTV "PUNCTUATION" ";"
    let update ← do
      let mp ← matchTV "PUNCTUATION" ")"
      if !mp then do
        let e ← rec.parseExpression
        pure (some e)
      else pure (none : Option AST)
    let _ ← consumeTV "PUNCTUATION" ")"
    let body ← rec.parseStatement
    pure (AST.forLoop init (some condition) update body)

  parseWhileLoop := do
    let _ ← consumeTV "KEYWORD" "while"
    let _ ← consumeTV "PUNCTUATION" "("
    let condition ← rec.parseExpression
    let _ ← consumeTV "PUNCTUATION" ")"
    let body ← rec.parseStatement
    pure (AST.whileLoop condition body)

  parseDoWhileLoop := do
    let _ ← consumeTV "KEYWORD" "do"
    let body ← rec.parseStatement
    let _ ← consumeTV "KEYWORD" "while"
    let _ ← consumeTV "PUNCTUATION" "("
    let condition ← rec.parseExpression
    let _ ← consumeTV "PUNCTUATION" ")"
    -- Semicolon is required for do-while loops
    let m ← matchTV "PUNCTUATION" ";"
    if m then do
      let _ ← consumeAny
      pure (AST.doWhileLoop body condition)
    else do
      addWarningP "Missing semicolon after do-while statement"
      pure (AST.doWhileLoop body condition)

  parseSwitchStatement := do
    let _ ← consumeTV "KEYWORD" "switch"
    let _ ← consumeTV "PUNCTUATION" "("
    let discriminant ← rec.parseExpression
    let _ ← consumeTV "PUNCTUATION" ")"
    let _ ← consumeTV "BRACKET" "\x7b"
    let cd ← rec.switchLoop [] none
    let cases :=
      match cd.2 with
      | some d => cd.1 ++ [d]
      | none => cd.1
    let _ ← consumeTV "BRACKET" "\x7d"
    pure (AST.switchStatement discriminant cases)

  switchLoop := fun cases dflt => do
    let mb ← matchTV "BRACKET" "\x7d"
    let t ← peekP
    if !mb && !(t.type == "EOF") then do
      let mc ← matchTV "KEYWORD" "case"
      if mc then do
        let _ ← consumeAny
        let test ← rec.parseExpression
        let _ ← consumeTV "PUNCTUATION" ":"
        let consequent ← rec.caseConsLoop []
        rec.switchLoop (cases ++ [AST.switchCase (some test) consequent]) dflt
      else do
        let md ← matchTV "KEYWORD" "default"
        if md then do
          let _ ← consumeAny
          let _ ← consumeTV "PUNCTUATION" ":"
          let consequent ← rec.defaultConsLoop []
          rec.switchLoop cases (some (AST.switchCase none consequent))
        else do
          addErrorP "Expected \x27case\x27 or \x27default\x27 in switch statement"
          let _ ← consumeAny        -- Skip token to try recovery
          rec.switchLoop cases dflt
    else pure (cases, dflt)

  caseConsLoop := fun acc => do
    let mc ← matchTV "KEYWORD" "case"
    let md ← matchTV "KEYWORD" "default"
    let mb ← matchTV "BRACKET" "\x7d"
    let t ← peekP
    if !mc && !md && !mb && !(t.type == "EOF") then do
      let s ← rec.parseStatement
      rec.caseConsLoop (acc ++ [s])
    else pure acc

  defaultConsLoop := fun acc => do
    let mc ← matchTV "KEYWORD" "case"
    let mb ← matchTV "BRACKET" "\x7d"
    let t ← peekP
    if !mc && !mb && !(t.type == "EOF") then do
      let s ← rec.parseStatement
      rec.defaultConsLoop (acc ++ [s])
    else pure acc

  parseReturnStatement := do
    let _ ← consumeTV "KEYWORD" "return"
    let ms ← matchTV "PUNCTUATION" ";"
    let mb ← matchTV "BRACKET" "\x7d"
    let argument ← do
      if !ms && !mb then do
        let e ← rec.parseExpression
        pure (some e)
      else pure (none : Option AST)
    -- Make semicolons optional - add warning instead of error
    let ms2 ← matchTV "PUNCTUATION" ";"
    if ms2 then do
      let _ ← consumeAny
      pure (AST.returnStatement argument)
    else do
      let mb2 ← matchTV "BRACKET" "\x7d"
      if !mb2 then do
        addWarningP "Missing semicolon after return statement"
        pure (AST.returnStatement argument)
      else
        pure (AST.returnStatement argument)

  parseExpression := rec.parseAssignment

  parseAssignment := do
    let left ← rec.parseLogicalOr
    let t ← peekP
    if t.type == "OPERATOR" &&
        ["=", "+=", "-=", "*=", "/=", "%="].contains t.value then do
      let op ← consumeAny
      let right ← rec.parseAssignment
      pure (AST.assignmentExpression op.value left right)
    else
      pure left

  parseLogicalOr := do
    let left ← rec.parseLogicalAnd
    rec.orLoop left

  orLoop := fun left => do
    let m ← matchTV "OPERATOR" "||"
    if m then do
      let _ ← consumeAny
      let right ← rec.parseLogicalAnd
      rec.orLoop (AST.binaryExpression "||" left right)
    else pure left

  parseLogicalAnd := do
    let left ← rec.parseEquality
    rec.andLoop left

  andLoop := fun left => do
    let m ← matchTV "OPERATOR" "&&"
    if m then do
      let _ ← consumeAny
      let right ← rec.parseEquality
      rec.andLoop (AST.binaryExpression "&&" left right)
    else pure left

  parseEquality := do
    let left ← rec.parseComparison
    rec.eqLoop left

  eqLoop := fun left => do
    let m1 ← matchTV "OPERATOR" "=="
    let m2 ← matchTV "OPERATOR" "!="
    if m1 || m2 then do
      let op ← consumeAny
      let right ← rec.parseComparison
      rec.eqLoop (AST.binaryExpression op.value left right)
    else pure left

  parseComparison := do
    let left ← rec.parseAdditive
    rec.cmpLoop left

  cmpLoop := fun left => do
    let m1 ← matchTV "OPERATOR" ">"
    let m2 ← matchTV "OPERATOR" ">="
    let m3 ← matchTV "OPERATOR" "<"
    let m4 ← matchTV "OPERATOR" "<="
    if m1 || m2 || m3 || m4 then do
      let op ← consumeAny
      let right ← rec.parseAdditive
      rec.cmpLoop (AST.binaryExpression op.value left right)
    else pure left

  parseAdditive := do
    let left ← rec.parseMultiplicative
    rec.addLoop left

  addLoop := fun left => do
    let m1 ← matchTV "OPERATOR" "+"
    let m2 ← matchTV "OPERATOR" "-"
    if m1 || m2 then do
      let op ← consumeAny
      let right ← rec.parseMultiplicative
      rec.addLoop (AST.binaryExpression op.value left right)
    else pure left

  parseMultiplicative := do
    let left ← rec.parseUnary
    rec.mulLoop left

  mulLoop := fun left => do
    let m1 ← matchTV "OPERATOR" "*"
    let m2 ← matchTV "OPERATOR" "/"
    let m3 ← matchTV "OPERATOR" "%"
    if m1 || m2 || m3 then do
      let op ← consumeAny
      let right ← rec.parseUnary
      rec.mulLoop (AST.binaryExpression op.value left right)
    else pure left

  parseUnary := do
    let m1 ← matchTV "OPERATOR" "-"
    let m2 ← matchTV "OPERATOR" "!"
    let m3 ← matchTV "OPERATOR" "+"
    if m1 || m2 || m3 then do
      let op ← consumeAny
      let argument ← rec.parseUnary
      pure (AST.unaryExpression op.value argument)
    else
      rec.parseCallOrMember

  parseCallOrMember := do
    let e ← rec.parsePrimary
    rec.comLoop e

  comLoop := fun expression => do
    let mp ← matchTV "PUNCTUATION" "("
    if mp then do
      let e ← rec.parseCallExpression expression
      rec.comLoop e
    else do
      let md ← matchTV "PUNCTUATION" "."
      if md then do
        let e ← parseMemberExpression expression
        rec.comLoop e
      else do
        let mi ← matchTV "BRACKET" "["
        if mi then do
          let e ← rec.parseIndexExpression expression
          rec.comLoop e
        else pure expression

  parseCallExpression := fun callee => do
    let _ ← consumeTV "PUNCTUATION" "("
    let args ← do
      let m ← matchTV "PUNCTUATION" ")"
      if m then pure ([] : List AST) else rec.argsLoop []
    let _ ← consumeTV "PUNCTUATION" ")"
    -- Special validation for SAAAM built-in functions
    match callee with
    | AST.identifier funcName _ => do
      if (funcName == "keyboard_check" ||
          funcName == "keyboard_check_pressed" ||
          funcName == "keyboard_check_released") && !(args.length == 1) then
        addWarningP (funcName ++ " expects exactly 1 argument (key code)")
      if funcName == "draw_sprite" && args.length < 3 then
        addWarningP "draw_sprite requires at least 3 arguments (sprite, x, y)"
      if funcName == "draw_text" && args.length < 3 then
        addWarningP "draw_text requires at least 3 arguments (text, x, y)"
      pure (AST.callExpression callee args)
    | _ => pure (AST.callExpression callee args)

  argsLoop := fun acc => do
    let e ← rec.parseExpression
    let acc := acc ++ [e]
    let m ← matchTV "PUNCTUATION" ","
    if m then do
      let _ ← consumeAny
      rec.argsLoop acc
    else pure acc

  parseIndexExpression := fun object => do
    let _ ← consumeTV "BRACKET" "["
    let property ← rec.parseExpression
    let _ ← consumeTV "BRACKET" "]"
    pure (AST.memberIndex object property)

  parseObjectLiteral := do
    let _ ← consumeTV "BRACKET" "\x7b"
    let properties ← rec.objLoop []
    let _ ← consumeTV "BRACKET" "\x7d"
    pure (AST.objectExpression properties)

  objLoop := fun acc => do
    let mb ← matchTV "BRACKET" "\x7d"
    let t ← peekP
    if !mb && !(t.type == "EOF") then do
      -- Property key
      let mi ← matchTV "BRACKET" "["
      if mi then do
        -- Computed property name
        let _ ← consumeTV "BRACKET" "["
        let key ← rec.parseExpression
        let _ ← consumeTV "BRACKET" "]"
        rec.objValue acc key none true
      else do
        let midf ← matchT "IDENTIFIER"
        if midf then do
          let kt ← consumeT "IDENTIFIER"
          rec.objValue acc (AST.identifier kt.value false) (some kt.value) false
        else do
          let mstr ← matchT "STRING"
          if mstr then do
            let kt ← consumeT "STRING"
            -- Strip quotes
            let kv := String.mk (kt.value.data.drop 1 |>.dropLast)
            rec.objValue acc (AST.identifier kv false) (some kv) false
          else do
            addErrorP "Expected property name in object literal"
            let mcm ← matchTV "PUNCTUATION" ","
            if mcm then do
              let _ ← consumeAny
              rec.objLoop acc
            else rec.objLoop acc
    else pure acc

  objValue := fun acc keyNode strKey computed => do
    let mcol ← matchTV "PUNCTUATION" ":"
    let val ← do
      if mcol then do
        let _ ← consumeTV "PUNCTUATION" ":"
        let v ← rec.parseExpression
        pure (some v)
      else
        match computed, strKey with
        | false, some k =>
          -- Shorthand property (ES6): { x } => { x: x }
          pure (some (AST.identifier k false))
        | _, _ => do
          addErrorP "Expected \x27:\x27 after property name in object literal"
          let mcm ← matchTV "PUNCTUATION" ","
          if mcm then do
            let _ ← consumeAny
            pure (none : Option AST)
          else pure (none : Option AST)
    match val with
    | none => rec.objLoop acc
    | some v => do
      let acc := acc ++ [AST.property keyNode v computed]
      let mcm ← matchTV "PUNCTUATION" ","
      if mcm then do
        let _ ← consumeAny
        rec.objLoop acc
      else do
        let mb ← matchTV "BRACKET" "\x7d"
        if !mb then do
          addWarningP "Expected \x27,\x27 after property in object literal"
          rec.objLoop acc
        else rec.objLoop acc

  parseArrayLiteral := do
    let _ ← consumeTV "BRACKET" "["
    let elements ← rec.arrLoop []
    let _ ← consumeTV "BRACKET" "]"
    pure (AST.arrayExpression elements)

  arrLoop := fun acc => do
    let mb ← matchTV "BRACKET" "]"
    let t ← peekP
    if !mb && !(t.type == "EOF") then do
      let mcm ← matchTV "PUNCTUATION" ","
      if mcm then do
        -- Handle empty elements: [1,,3]
        let _ ← consumeAny
        rec.arrLoop (acc ++ [none])
      else do
        let e ← rec.parseExpression
        let acc := acc ++ [some e]
        let mcm2 ← matchTV "PUNCTUATION" ","
        if mcm2 then do
          let _ ← consumeAny
          rec.arrLoop acc
        else do
          let mb2 ← matchTV "BRACKET" "]"
          if !mb2 then do
            addWarningP "Expected \x27,\x27 after array element"
            rec.arrLoop acc
          else rec.arrLoop acc
    else pure acc

  parsePrimary := do
    let m ← matchTV "KEYWORD" "this"
    if m then do
      let _ ← consumeAny
      pure AST.thisExpression
    else do
    let m ← matchTV "SAAAM_KEYWORD" "vec2"
    if m then do
      let _ ← consumeAny
      let _ ← consumeTV "PUNCTUATION" "("
      let x ← rec.parseExpression
      let _ ← consumeTV "PUNCTUATION" ","
      let y ← rec.parseExpression
      let _ ← consumeTV "PUNCTUATION" ")"
      pure (AST.vec2Expression x y)
    else do
    let m ← matchTV "SAAAM_KEYWORD" "vec3"
    if m then do
      let _ ← consumeAny
      let _ ← consumeTV "PUNCTUATION" "("
      let x ← rec.parseExpression
      let _ ← consumeTV "PUNCTUATION" ","
      let y ← rec.parseExpression
      let _ ← consumeTV "PUNCTUATION" ","
      let z ← rec.parseExpression
      let _ ← consumeTV "PUNCTUATION" ")"
      pure (AST.vec3Expression x y z)
    else do
    let m ← matchT "IDENTIFIER"
    if m then do
      let it ← consumeT "IDENTIFIER"
      -- Check if identifier is predefined in SAAAM
      let isPredefinedVar := predefinedVariables.contains it.value
      let isPredefinedFunc := predefinedFunctions.contains it.value
      pure (AST.identifier it.value (isPredefinedVar || isPredefinedFunc))
    else do
    let m ← matchT "NUMBER"
    if m then do
      let nt ← consumeT "NUMBER"
      -- Literal value: Number.parseFloat(lexeme); the lexeme is stored
      pure (AST.literal (JsVal.num nt.value) none)
    else do
    let m ← matchT "STRING"
    if m then do
      -- Remove the quotes
      let st ← consumeT "STRING"
      pure (AST.literal (JsVal.str (String.mk (st.value.data.drop 1 |>.dropLast)))
        (some st.value))
    else do
    let m ← matchTV "KEYWORD" "true"
    if m then do
      let _ ← consumeAny
      pure (AST.literal (JsVal.bool true) none)
    else do
    let m ← matchTV "KEYWORD" "false"
    if m then do
      let _ ← consumeAny
      pure (AST.literal (JsVal.bool false) none)
    else do
    let m ← matchTV "KEYWORD" "null"
    if m then do
      let _ ← consumeAny
      pure (AST.literal JsVal.null none)
    else do
    let m ← matchTV "KEYWORD" "undefined"
    if m then do
      let _ ← consumeAny
      pure (AST.identifier "undefined" false)
    else do
    let m ← matchTV "BRACKET" "\x7b"
    if m then rec.parseObjectLiteral
    else do
    let m ← matchTV "BRACKET" "["
    if m then rec.parseArrayLiteral
    else do
    let m ← matchTV "PUNCTUATION" "("
    if m then do
      let _ ← consumeAny
      let expr ← rec.parseExpression
      let _ ← consumeTV "PUNCTUATION" ")"
      pure expr
    else do
      let t ← peekP
      addErrorP ("Unexpected token: " ++ t.value)
      throwP ("Unexpected token: " ++ t.value)

/-- The parser functions with `fuel` recursion levels available. -/
def parsersAt (fuel : Nat) : ParserRec :=
  Nat.rec parsersZero (fun _ ih => parseStep ih) fuel

/-- `parseProgram()`: loop over top-level declarations and statements with
the statement-level error recovery of the source (`try`/`catch` around each
statement, then skip to the next `;` or `\x7d`). -/
def parseProgram (fuel : Nat) : PM AST :=
  (parsersAt fuel).parseProgram

def parseProgramLoop (fuel : Nat) (body : List AST) : PM (List AST) :=
  (parsersAt fuel).parseProgramLoop body

/-- The recovery skip of `parseProgram`: consume tokens until the current
token is `;`, `\x7d` or `EOF`. -/
def skipToBoundary (fuel : Nat) : PM Unit :=
  (parsersAt fuel).skipToBoundary

/-- `parseVariableDeclaration()`. -/
def parseVariableDeclaration (fuel : Nat) : PM AST :=
  (parsersAt fuel).parseVariableDeclaration

/-- `parseFunctionDefinition()`. -/
def parseFunctionDefinition (fuel : Nat) : PM AST :=
  (parsersAt fuel).parseFunctionDefinition

/-- The `do … while (match(",") && consume())` parameter loop of
`parseFunctionDefinition`. -/
def paramsLoop (fuel : Nat) (acc : List String) : PM (List String) :=
  (parsersAt fuel).paramsLoop acc

/-- `parseBlock()`. -/
def parseBlock (fuel : Nat) : PM AST :=
  (parsersAt fuel).parseBlock

def blockLoop (fuel : Nat) (acc : List AST) : PM (List AST) :=
  (parsersAt fuel).blockLoop acc

/-- `parseStatement()`: the statement dispatch, in source order. -/
def parseStatement (fuel : Nat) : PM AST :=
  (parsersAt fuel).parseStatement

/-- `parseIfStatement()`. -/
def parseIfStatement (fuel : Nat) : PM AST :=
  (parsersAt fuel).parseIfStatement

/-- `parseForLoop()`. -/
def parseForLoop (fuel : Nat) : PM AST :=
  (parsersAt fuel).parseForLoop

/-- `parseWhileLoop()`. -/
def parseWhileLoop (fuel : Nat) : PM AST :=
  (parsersAt fuel).parseWhileLoop

/-- `parseDoWhileLoop()`. -/
def parseDoWhileLoop (fuel : Nat) : PM AST :=
  (parsersAt fuel).parseDoWhileLoop

/-- `parseSwitchStatement()`: collect `case` clauses in order; a `default`
clause is parked in a separate variable and appended after the loop, so it
always ends up last in `cases`. -/
def parseSwitchStatement (fuel : Nat) : PM AST :=
  (parsersAt fuel).parseSwitchStatement

def switchLoop (fuel : Nat) (cases : List AST) (dflt : Option AST) : PM (List AST × Option AST) :=
  (parsersAt fuel).switchLoop cases dflt

/-- The consequent loop of a `case` clause: stop at `case`, `default`,
`\x7d` or `EOF`. -/
def caseConsLoop (fuel : Nat) (acc : List AST) : PM (List AST) :=
  (parsersAt fuel).caseConsLoop acc

/-- The consequent loop of the `default` clause: stop at `case`, `\x7d` or
`EOF`. -/
def defaultConsLoop (fuel : Nat) (acc : List AST) : PM (List AST) :=
  (parsersAt fuel).defaultConsLoop acc

/-- `parseReturnStatement()`. -/
def parseReturnStatement (fuel : Nat) : PM AST :=
  (parsersAt fuel).parseReturnStatement

/-- `parseExpression()`. -/
def parseExpression (fuel : Nat) : PM AST :=
  (parsersAt fuel).parseExpression

/-- `parseAssignment()`: right-associative; the source checks
`match("OPERATOR", op)` for each of `= += -= *= /= %=` in turn (each check
only peeks, so this equals one peek against the six values). -/
def parseAssignment (fuel : Nat) : PM AST :=
  (parsersAt fuel).parseAssignment

/-- `parseLogicalOr()`. -/
def parseLogicalOr (fuel : Nat) : PM AST :=
  (parsersAt fuel).parseLogicalOr

def orLoop (fuel : Nat) (left : AST) : PM AST :=
  (parsersAt fuel).orLoop left

/-- `parseLogicalAnd()`. -/
def parseLogicalAnd (fuel : Nat) : PM AST :=
  (parsersAt fuel).parseLogicalAnd

def andLoop (fuel : Nat) (left : AST) : PM AST :=
  (parsersAt fuel).andLoop left

/-- `parseEquality()`. -/
def parseEquality (fuel : Nat) : PM AST :=
  (parsersAt fuel).parseEquality

def eqLoop (fuel : Nat) (left : AST) : PM AST :=
  (parsersAt fuel).eqLoop left

/-- `parseComparison()`. -/
def parseComparison (fuel : Nat) : PM AST :=
  (parsersAt fuel).parseComparison

def cmpLoop (fuel : Nat) (left : AST) : PM AST :=
  (parsersAt fuel).cmpLoop left

/-- `parseAdditive()`. -/
def parseAdditive (fuel : Nat) : PM AST :=
  (parsersAt fuel).parseAdditive

def addLoop (fuel : Nat) (left : AST) : PM AST :=
  (parsersAt fuel).addLoop left

/-- `parseMultiplicative()`. -/
def parseMultiplicative (fuel : Nat) : PM AST :=
  (parsersAt fuel).parseMultiplicative

def mulLoop (fuel : Nat) (left : AST) : PM AST :=
  (parsersAt fuel).mulLoop left

/-- `parseUnary()`. -/
def parseUnary (fuel : Nat) : PM AST :=
  (parsersAt fuel).parseUnary

/-- `parseCallOrMember()`. -/
def parseCallOrMember (fuel : Nat) : PM AST :=
  (parsersAt fuel).parseCallOrMember

def comLoop (fuel : Nat) (expression : AST) : PM AST :=
  (parsersAt fuel).comLoop expression

/-- `parseCallExpression(callee)`, including the arity warnings for the
SAAAM built-in functions. -/
def parseCallExpression (fuel : Nat) (callee : AST) : PM AST :=
  (parsersAt fuel).parseCallExpression callee

def argsLoop (fuel : Nat) (acc : List AST) : PM (List AST) :=
  (parsersAt fuel).argsLoop acc

/-- `parseIndexExpression(object)`: `[expr]` access (`computed: true`). -/
def parseIndexExpression (fuel : Nat) (object : AST) : PM AST :=
  (parsersAt fuel).parseIndexExpression object

/-- `parseObjectLiteral()`. -/
def parseObjectLiteral (fuel : Nat) : PM AST :=
  (parsersAt fuel).parseObjectLiteral

def objLoop (fuel : Nat) (acc : List AST) : PM (List AST) :=
  (parsersAt fuel).objLoop acc

/-- The value half of one `parseObjectLiteral` iteration.  `strKey` is the
string form of the key when the source's local `key` variable holds a
string (identifier or string-literal key); shorthand `\x7b x \x7d` then
expands to `\x7b x: x \x7d`.  The source stores shorthand and wrapped keys
as `{ type: "Identifier", name: key }` without an `isPredefined` field;
no consumer reads that field, and it is modelled as `false`. -/
def objValue (fuel : Nat) (acc : List AST) (keyNode : AST) (strKey : Option String) (computed : Bool) : PM (List AST) :=
  (parsersAt fuel).objValue acc keyNode strKey computed

/-- `parseArrayLiteral()`. -/
def parseArrayLiteral (fuel : Nat) : PM AST :=
  (parsersAt fuel).parseArrayLiteral

def arrLoop (fuel : Nat) (acc : List (Option AST)) : PM (List (Option AST)) :=
  (parsersAt fuel).arrLoop acc

/-- `parsePrimary()`: the primary-expression dispatch, in source order. -/
def parsePrimary (fuel : Nat) : PM AST :=
  (parsersAt fuel).parsePrimary


/-! ### Applied evaluation lemmas for the parser monad

These drive symbolic evaluation of parser runs in proofs: each gives the
value of a basic action, or of a `bind`, applied to a state. -/

theorem bind_apply {α β : Type} (x : PM α) (f : α → PM β) (s : PSt) :
    (x >>= f) s =
      match x s with
      | (Except.ok a, s1) => f a s1
      | (Except.error e, s1) => (Except.error e, s1) := rfl

theorem pure_apply {α : Type} (a : α) (s : PSt) :
    (pure a : PM α) s = (Except.ok a, s) := rfl

theorem peekP_apply (s : PSt) :
    peekP s = (Except.ok (s.tokens.getD s.cur oobToken), s) := rfl

theorem matchT_apply (ty : String) (s : PSt) :
    matchT ty s = (Except.ok ((s.tokens.getD s.cur oobToken).type == ty), s) := rfl

theorem matchTV_apply (ty v : String) (s : PSt) :
    matchTV ty v s =
      (Except.ok ((s.tokens.getD s.cur oobToken).type == ty &&
                  (s.tokens.getD s.cur oobToken).value == v), s) := rfl

theorem consumeAny_apply (s : PSt) :
    consumeAny s =
      (Except.ok (s.tokens.getD s.cur oobToken), { s with cur := s.cur + 1 }) := rfl

theorem throwP_apply {α : Type} (msg : String) (s : PSt) :
    (throwP msg : PM α) s = (Except.error msg, s) := rfl

theorem addErrorP_apply (m : String) (s : PSt) :
    addErrorP m s = (Except.ok (), { s with errors := s.errors ++ [m] }) := rfl

theorem addWarningP_apply (m : String) (s : PSt) :
    addWarningP m s = (Except.ok (), { s with warnings := s.warnings ++ [m] }) := rfl

theorem consumeT_apply (ty : String) (s : PSt) :
    consumeT ty s =
      (if (s.tokens.getD s.cur oobToken).type == ty then consumeAny s
       else
        (Except.error ("Expected token of type " ++ ty ++ ", but got " ++
            (s.tokens.getD s.cur oobToken).type),
         { s with errors := s.errors ++ ["Expected token of type " ++ ty ++
            ", but got " ++ (s.tokens.getD s.cur oobToken).type] })) := by
  unfold consumeT
  rw [bind_apply, peekP_apply]
  dsimp only
  rcases hty : ((s.tokens.getD s.cur oobToken).type == ty) with _ | _ <;> rfl

theorem consumeTV_apply (ty v : String) (s : PSt) :
    consumeTV ty v s =
      (if !((s.tokens.getD s.cur oobToken).type == ty) then
        (Except.error ("Expected token of type " ++ ty ++ ", but got " ++
            (s.tokens.getD s.cur oobToken).type),
         { s with errors := s.errors ++ ["Expected token of type " ++ ty ++
            ", but got " ++ (s.tokens.getD s.cur oobToken).type] })
      else if !((s.tokens.getD s.cur oobToken).value == v) then
        (Except.error ("Expected token with value " ++ v ++ ", but got " ++
            (s.tokens.getD s.cur oobToken).value),
         { s with errors := s.errors ++ ["Expected token with value " ++ v ++
            ", but got " ++ (s.tokens.getD s.cur oobToken).value] })
      else consumeAny s) := by
  unfold consumeTV
  rw [bind_apply, peekP_apply]
  dsimp only
  rcases hty : ((s.tokens.getD s.cur oobToken).type == ty) with _ | _
  · rfl
  · rcases hv : ((s.tokens.getD s.cur oobToken).value == v) with _ | _ <;> rfl

theorem tryCatchP_apply {α : Type} (x : PM α) (h : String → PM α) (s : PSt) :
    tryCatchP x h s =
      match x s with
      | (Except.ok a, s1) => (Except.ok a, s1)
      | (Except.error e, s1) => h e s1 := rfl


/-! ### Defining equations of the fuel-indexed parser functions

One lemma per function: level `fuel + 1` runs the body with the
recursive occurrences at level `fuel`.  All are `rfl`. -/

theorem parseProgram_succ (fuel : Nat) :
    parseProgram (fuel + 1) =
      (do
    let body ← parseProgramLoop fuel []
    pure (AST.program body)
      ) := rfl

theorem parseProgramLoop_succ (fuel : Nat) (body : List AST) :
    parseProgramLoop (fuel + 1) body =
      (do
    let t ← peekP
    if t.type == "EOF" then
      pure body
    else do
      let r ← tryCatchP
        (do
          let mv ← matchTV "KEYWORD" "var"
          let mc ← matchTV "KEYWORD" "const"
          let ml ← matchTV "KEYWORD" "let"
          if mv || mc || ml then do
            let d ← parseVariableDeclaration fuel
            pure (some d)
          else do
            let mf ← matchTV "KEYWORD" "function"
            if mf then do
              let d ← parseFunctionDefinition fuel
              pure (some d)
            else do
              let d ← parseStatement fuel
              pure (some d))
        (fun e => do
          addErrorP ("Parse error: " ++ e)
          -- Skip tokens until we find a semicolon or bracket
          skipToBoundary fuel
          let ms ← matchTV "PUNCTUATION" ";"
          let mb ← matchTV "BRACKET" "\x7d"
          if ms || mb then do
            let _ ← consumeAny
            pure none
          else pure none)
      match r with
      | some stmt => parseProgramLoop fuel (body ++ [stmt])
      | none => parseProgramLoop fuel body
      ) := rfl

theorem skipToBoundary_succ (fuel : Nat) :
    skipToBoundary (fuel + 1) =
      (do
    let ms ← matchTV "PUNCTUATION" ";"
    let mb ← matchTV "BRACKET" "\x7d"
    let t ← peekP
    if !ms && !mb && !(t.type == "EOF") then do
      let _ ← consumeAny
      skipToBoundary fuel
    else pure ()
      ) := rfl

theorem parseVariableDeclaration_succ (fuel : Nat) :
    parseVariableDeclaration (fuel + 1) =
      (do
    let kt ← consumeAny            -- 'var', 'const', or 'let'
    let it ← consumeT "IDENTIFIER"
    let init ← do
      let m ← matchTV "OPERATOR" "="
      if m then do
        let _ ← consumeAny         -- consume '='
        let e ← parseExpression fuel
        pure (some e)
      else pure (none : Option AST)
    -- Make semicolons optional - add warning instead of error
    let m ← matchTV "PUNCTUATION" ";"
    if m then do
      let _ ← consumeAny
      pure (AST.variableDeclaration kt.value it.value init)
    else do
      addWarningP ("Missing semicolon after variable declaration for \x27" ++
        it.value ++ "\x27")
      pure (AST.variableDeclaration kt.value it.value init)
      ) := rfl

theorem parseFunctionDefinition_succ (fuel : Nat) :
    parseFunctionDefinition (fuel + 1) =
      (do
    let _ ← consumeTV "KEYWORD" "function"
    let nt ← consumeT "IDENTIFIER"
    let _ ← consumeTV "PUNCTUATION" "("
    let params ← do
      let m ← matchTV "PUNCTUATION" ")"
      if m then pure ([] : List String) else paramsLoop fuel []
    let _ ← consumeTV "PUNCTUATION" ")"
    let body ← parseBlock fuel
    -- Check if this is a SAAAM lifecycle function
    if ["create", "step", "draw", "on_collision"].contains nt.value then do
      if nt.value == "step" && params.isEmpty then
        addWarningP "The \x27step\x27 function should have a \x27deltaTime\x27 parameter for time-based movement"
      if nt.value == "draw" && params.isEmpty then
        addWarningP "The \x27draw\x27 function should have a \x27ctx\x27 parameter for drawing context"
      pure (AST.functionDefinition nt.value params body)
    else
      pure (AST.functionDefinition nt.value params body)
      ) := rfl

theorem paramsLoop_succ (fuel : Nat) (acc : List String) :
    paramsLoop (fuel + 1) acc =
      (do
    let pt ← consumeT "IDENTIFIER"
    let acc := acc ++ [pt.value]
    let m ← matchTV "PUNCTUATION" ","
    if m then do
      let _ ← consumeAny
      paramsLoop fuel acc
    else pure acc
      ) := rfl

theorem parseBlock_succ (fuel : Nat) :
    parseBlock (fuel + 1) =
      (do
    let _ ← consumeTV "BRACKET" "\x7b"
    let stmts ← blockLoop fuel []
    let t ← peekP
    if t.type == "EOF" then do
      addErrorP "Unexpected end of file, expected \x27\x7d\x27"
      throwP "Unexpected end of file"
    else do
      let _ ← consumeTV "BRACKET" "\x7d"
      pure (AST.block stmts)
      ) := rfl

theorem blockLoop_succ (fuel : Nat) (acc : List AST) :
    blockLoop (fuel + 1) acc =
      (do
    let m ← matchTV "BRACKET" "\x7d"
    let t ← peekP
    if !m && !(t.type == "EOF") then do
      let s ← parseStatement fuel
      blockLoop fuel (acc ++ [s])
    else pure acc
      ) := rfl

theorem parseStatement_succ (fuel : Nat) :
    parseStatement (fuel + 1) =
      (do
    let mv ← matchTV "KEYWORD" "var"
    let mc ← matchTV "KEYWORD" "const"
    let ml ← matchTV "KEYWORD" "let"
    if mv || mc || ml then parseVariableDeclaration fuel
    else do
    let m ← matchTV "KEYWORD" "if"
    if m then parseIfStatement fuel
    else do
    let m ← matchTV "KEYWORD" "for"
    if m then parseForLoop fuel
    else do
    let m ← matchTV "KEYWORD" "while"
    if m then parseWhileLoop fuel
    else do
    let m ← matchTV "KEYWORD" "do"
    if m then parseDoWhileLoop fuel
    else do
    let m ← matchTV "KEYWORD" "switch"
    if m then parseSwitchStatement fuel
    else do
    let m ← matchTV "KEYWORD" "return"
    if m then parseReturnStatement fuel
    else do
    let m ← matchTV "KEYWORD" "break"
    if m then parseBreakStatement
    else do
    let m ← matchTV "KEYWORD" "continue"
    if m then parseContinueStatement
    else do
    let m ← matchTV "BRACKET" "\x7b"
    if m then parseBlock fuel
    else do
    let m ← matchTV "PUNCTUATION" ";"
    if m then do
      let _ ← consumeAny
      pure AST.emptyStatement
    else do
      -- Default: expression statement
      let expr ← parseExpression fuel
      -- Make semicolons optional - add warning instead of error
      let m ← matchTV "PUNCTUATION" ";"
      if m then do
        let _ ← consumeAny
        pure (AST.expressionStatement expr)
      else do
        addWarningP "Missing semicolon after expression"
        pure (AST.expressionStatement expr)
      ) := rfl

theorem parseIfStatement_succ (fuel : Nat) :
    parseIfStatement (fuel + 1) =
      (do
    let _ ← consumeTV "KEYWORD" "if"
    let _ ← consumeTV "PUNCTUATION" "("
    let condition ← parseExpression fuel
    let _ ← consumeTV "PUNCTUATION" ")"
    let consequent ← parseStatement fuel
    let me ← matchTV "KEYWORD" "else"
    if me then do
      let _ ← consumeAny
      let alternate ← parseStatement fuel
      pure (AST.ifStatement condition consequent (some alternate))
    else
      pure (AST.ifStatement condition consequent none)
      ) := rfl

theorem parseForLoop_succ (fuel : Nat) :
    parseForLoop (fuel + 1) =
      (do
    let _ ← consumeTV "KEYWORD" "for"
    let _ ← consumeTV "PUNCTUATION" "("
    let init ← do
      let ms ← matchTV "PUNCTUATION" ";"
      if !ms then do
        let mv ← matchTV "KEYWORD" "var"
        let mc ← matchTV "KEYWORD" "const"
        let ml ← matchTV "KEYWORD" "let"
        if mv || mc || ml then do
          let d ← parseVariableDeclaration fuel
          pure (some d)
        else do
          let e ← parseExpression fuel
          let _ ← consumeTV "PUNCTUATION" ";"
          pure (some e)
      else do
        let _ ← consumeTV "PUNCTUATION" ";"
        pure (none : Option AST)
    let condition ← do
      let ms ← matchTV "PUNCTUATION" ";"
      if !ms then do
        let e ← parseExpression fuel
        pure e
      else
        -- No condition specified, default to true
        pure (AST.literal (JsVal.bool true) none)
    let _ ← consumeTV "PUNCTUATION" ";"
    let update ← do
      let mp ← matchTV "PUNCTUATION" ")"
      if !mp then do
        let e ← parseExpression fuel
        pure (some e)
      else pure (none : Option AST)
    let _ ← consumeTV "PUNCTUATION" ")"
    let body ← parseStatement fuel
    pure (AST.forLoop init (some condition) update body)
      ) := rfl

theorem parseWhileLoop_succ (fuel : Nat) :
    parseWhileLoop (fuel + 1) =
      (do
    let _ ← consumeTV "KEYWORD" "while"
    let _ ← consumeTV "PUNCTUATION" "("
    let condition ← parseExpression fuel
    let _ ← consumeTV "PUNCTUATION" ")"
    let body ← parseStatement fuel
    pure (AST.whileLoop condition body)
      ) := rfl

theorem parseDoWhileLoop_succ (fuel : Nat) :
    parseDoWhileLoop (fuel + 1) =
      (do
    let _ ← consumeTV "KEYWORD" "do"
    let body ← parseStatement fuel
    let _ ← consumeTV "KEYWORD" "while"
    let _ ← consumeTV "PUNCTUATION" "("
    let condition ← parseExpression fuel
    let _ ← consumeTV "PUNCTUATION" ")"
    -- Semicolon is required for do-while loops
    let m ← matchTV "PUNCTUATION" ";"
    if m then do
      let _ ← consumeAny
      pure (AST.doWhileLoop body condition)
    else do
      addWarningP "Missing semicolon after do-while statement"
      pure (AST.doWhileLoop body condition)
      ) := rfl

theorem parseSwitchStatement_succ (fuel : Nat) :
    parseSwitchStatement (fuel + 1) =
      (do
    let _ ← consumeTV "KEYWORD" "switch"
    let _ ← consumeTV "PUNCTUATION" "("
    let discriminant ← parseExpression fuel
    let _ ← consumeTV "PUNCTUATION" ")"
    let _ ← consumeTV "BRACKET" "\x7b"
    let cd ← switchLoop fuel [] none
    let cases :=
      match cd.2 with
      | some d => cd.1 ++ [d]
      | none => cd.1
    let _ ← consumeTV "BRACKET" "\x7d"
    pure (AST.switchStatement discriminant cases)
      ) := rfl

theorem switchLoop_succ (fuel : Nat) (cases : List AST) (dflt : Option AST) :
    switchLoop (fuel + 1) cases dflt =
      (do
    let mb ← matchTV "BRACKET" "\x7d"
    let t ← peekP
    if !mb && !(t.type == "EOF") then do
      let mc ← matchTV "KEYWORD" "case"
      if mc then do
        let _ ← consumeAny
        let test ← parseExpression fuel
        let _ ← consumeTV "PUNCTUATION" ":"
        let consequent ← caseConsLoop fuel []
        switchLoop fuel (cases ++ [AST.switchCase (some test) consequent]) dflt
      else do
        let md ← matchTV "KEYWORD" "default"
        if md then do
          let _ ← consumeAny
          let _ ← consumeTV "PUNCTUATION" ":"
          let consequent ← defaultConsLoop fuel []
          switchLoop fuel cases (some (AST.switchCase none consequent))
        else do
          addErrorP "Expected \x27case\x27 or \x27default\x27 in switch statement"
          let _ ← consumeAny        -- Skip token to try recovery
          switchLoop fuel cases dflt
    else pure (cases, dflt)
      ) := rfl

theorem caseConsLoop_succ (fuel : Nat) (acc : List AST) :
    caseConsLoop (fuel + 1) acc =
      (do
    let mc ← matchTV "KEYWORD" "case"
    let md ← matchTV "KEYWORD" "default"
    let mb ← matchTV "BRACKET" "\x7d"
    let t ← peekP
    if !mc && !md && !mb && !(t.type == "EOF") then do
      let s ← parseStatement fuel
      caseConsLoop fuel (acc ++ [s])
    else pure acc
      ) := rfl

theorem defaultConsLoop_succ (fuel : Nat) (acc : List AST) :
    defaultConsLoop (fuel + 1) acc =
      (do
    let mc ← matchTV "KEYWORD" "case"
    let mb ← matchTV "BRACKET" "\x7d"
    let t ← peekP
    if !mc && !mb && !(t.type == "EOF") then do
      let s ← parseStatement fuel
      defaultConsLoop fuel (acc ++ [s])
    else pure acc
      ) := rfl

theorem parseReturnStatement_succ (fuel : Nat) :
    parseReturnStatement (fuel + 1) =
      (do
    let _ ← consumeTV "KEYWORD" "return"
    let ms ← matchTV "PUNCTUATION" ";"
    let mb ← matchTV "BRACKET" "\x7d"
    let argument ← do
      if !ms && !mb then do
        let e ← parseExpression fuel
        pure (some e)
      else pure (none : Option AST)
    -- Make semicolons optional - add warning instead of error
    let ms2 ← matchTV "PUNCTUATION" ";"
    if ms2 then do
      let _ ← consumeAny
      pure (AST.returnStatement argument)
    else do
      let mb2 ← matchTV "BRACKET" "\x7d"
      if !mb2 then do
        addWarningP "Missing semicolon after return statement"
        pure (AST.returnStatement argument)
      else
        pure (AST.returnStatement argument)
      ) := rfl

theorem parseExpression_succ (fuel : Nat) :
    parseExpression (fuel + 1) =
      (parseAssignment fuel
      ) := rfl

theorem parseAssignment_succ (fuel : Nat) :
    parseAssignment (fuel + 1) =
      (do
    let left ← parseLogicalOr fuel
    let t ← peekP
    if t.type == "OPERATOR" &&
        ["=", "+=", "-=", "*=", "/=", "%="].contains t.value then do
      let op ← consumeAny
      let right ← parseAssignment fuel
      pure (AST.assignmentExpression op.value left right)
    else
      pure left
      ) := rfl

theorem parseLogicalOr_succ (fuel : Nat) :
    parseLogicalOr (fuel + 1) =
      (do
    let left ← parseLogicalAnd fuel
    orLoop fuel left
      ) := rfl

theorem orLoop_succ (fuel : Nat) (left : AST) :
    orLoop (fuel + 1) left =
      (do
    let m ← matchTV "OPERATOR" "||"
    if m then do
      let _ ← consumeAny
      let right ← parseLogicalAnd fuel
      orLoop fuel (AST.binaryExpression "||" left right)
    else pure left
      ) := rfl

theorem parseLogicalAnd_succ (fuel : Nat) :
    parseLogicalAnd (fuel + 1) =
      (do
    let left ← parseEquality fuel
    andLoop fuel left
      ) := rfl

theorem andLoop_succ (fuel : Nat) (left : AST) :
    andLoop (fuel + 1) left =
      (do
    let m ← matchTV "OPERATOR" "&&"
    if m then do
      let _ ← consumeAny
      let right ← parseEquality fuel
      andLoop fuel (AST.binaryExpression "&&" left right)
    else pure left
      ) := rfl

theorem parseEquality_succ (fuel : Nat) :
    parseEquality (fuel + 1) =
      (do
    let left ← parseComparison fuel
    eqLoop fuel left
      ) := rfl

theorem eqLoop_succ (fuel : Nat) (left : AST) :
    eqLoop (fuel + 1) left =
      (do
    let m1 ← matchTV "OPERATOR" "=="
    let m2 ← matchTV "OPERATOR" "!="
    if m1 || m2 then do
      let op ← consumeAny
      let right ← parseComparison fuel
      eqLoop fuel (AST.binaryExpression op.value left right)
    else pure left
      ) := rfl

theorem parseComparison_succ (fuel : Nat) :
    parseComparison (fuel + 1) =
      (do
    let left ← parseAdditive fuel
    cmpLoop fuel left
      ) := rfl

theorem cmpLoop_succ (fuel : Nat) (left : AST) :
    cmpLoop (fuel + 1) left =
      (do
    let m1 ← matchTV "OPERATOR" ">"
    let m2 ← matchTV "OPERATOR" ">="
    let m3 ← matchTV "OPERATOR" "<"
    let m4 ← matchTV "OPERATOR" "<="
    if m1 || m2 || m3 || m4 then do
      let op ← consumeAny
      let right ← parseAdditive fuel
      cmpLoop fuel (AST.binaryExpression op.value left right)
    else pure left
      ) := rfl

theorem parseAdditive_succ (fuel : Nat) :
    parseAdditive (fuel + 1) =
      (do
    let left ← parseMultiplicative fuel
    addLoop fuel left
      ) := rfl

theorem addLoop_succ (fuel : Nat) (left : AST) :
    addLoop (fuel + 1) left =
      (do
    let m1 ← matchTV "OPERATOR" "+"
    let m2 ← matchTV "OPERATOR" "-"
    if m1 || m2 then do
      let op ← consumeAny
      let right ← parseMultiplicative fuel
      addLoop fuel (AST.binaryExpression op.value left right)
    else pure left
      ) := rfl

theorem parseMultiplicative_succ (fuel : Nat) :
    parseMultiplicative (fuel + 1) =
      (do
    let left ← parseUnary fuel
    mulLoop fuel left
      ) := rfl

theorem mulLoop_succ (fuel : Nat) (left : AST) :
    mulLoop (fuel + 1) left =
      (do
    let m1 ← matchTV "OPERATOR" "*"
    let m2 ← matchTV "OPERATOR" "/"
    let m3 ← matchTV "OPERATOR" "%"
    if m1 || m2 || m3 then do
      let op ← consumeAny
      let right ← parseUnary fuel
      mulLoop fuel (AST.binaryExpression op.value left right)
    else pure left
      ) := rfl

theorem parseUnary_succ (fuel : Nat) :
    parseUnary (fuel + 1) =
      (do
    let m1 ← matchTV "OPERATOR" "-"
    let m2 ← matchTV "OPERATOR" "!"
    let m3 ← matchTV "OPERATOR" "+"
    if m1 || m2 || m3 then do
      let op ← consumeAny
      let argument ← parseUnary fuel
      pure (AST.unaryExpression op.value argument)
    else
      parseCallOrMember fuel
      ) := rfl

theorem parseCallOrMember_succ (fuel : Nat) :
    parseCallOrMember (fuel + 1) =
      (do
    let e ← parsePrimary fuel
    comLoop fuel e
      ) := rfl

theorem comLoop_succ (fuel : Nat) (expression : AST) :
    comLoop (fuel + 1) expression =
      (do
    let mp ← matchTV "PUNCTUATION" "("
    if mp then do
      let e ← parseCallExpression fuel expression
      comLoop fuel e
    else do
      let md ← matchTV "PUNCTUATION" "."
      if md then do
        let e ← parseMemberExpression expression
        comLoop fuel e
      else do
        let mi ← matchTV "BRACKET" "["
        if mi then do
          let e ← parseIndexExpression fuel expression
          comLoop fuel e
        else pure expression
      ) := rfl

theorem parseCallExpression_succ (fuel : Nat) (callee : AST) :
    parseCallExpression (fuel + 1) callee =
      (do
    let _ ← consumeTV "PUNCTUATION" "("
    let args ← do
      let m ← matchTV "PUNCTUATION" ")"
      if m then pure ([] : List AST) else argsLoop fuel []
    let _ ← consumeTV "PUNCTUATION" ")"
    -- Special validation for SAAAM built-in functions
    match callee with
    | AST.identifier funcName _ => do
      if (funcName == "keyboard_check" ||
          funcName == "keyboard_check_pressed" ||
          funcName == "keyboard_check_released") && !(args.length == 1) then
        addWarningP (funcName ++ " expects exactly 1 argument (key code)")
      if funcName == "draw_sprite" && args.length < 3 then
        addWarningP "draw_sprite requires at least 3 arguments (sprite, x, y)"
      if funcName == "draw_text" && args.length < 3 then
        addWarningP "draw_text requires at least 3 arguments (text, x, y)"
      pure (AST.callExpression callee args)
    | _ => pure (AST.callExpression callee args)
      ) := rfl

theorem argsLoop_succ (fuel : Nat) (acc : List AST) :
    argsLoop (fuel + 1) acc =
      (do
    let e ← parseExpression fuel
    let acc := acc ++ [e]
    let m ← matchTV "PUNCTUATION" ","
    if m then do
      let _ ← consumeAny
      argsLoop fuel acc
    else pure acc
      ) := rfl

theorem parseIndexExpression_succ (fuel : Nat) (object : AST) :
    parseIndexExpression (fuel + 1) object =
      (do
    let _ ← consumeTV "BRACKET" "["
    let property ← parseExpression fuel
    let _ ← consumeTV "BRACKET" "]"
    pure (AST.memberIndex object property)
      ) := rfl

theorem parseObjectLiteral_succ (fuel : Nat) :
    parseObjectLiteral (fuel + 1) =
      (do
    let _ ← consumeTV "BRACKET" "\x7b"
    let properties ← objLoop fuel []
    let _ ← consumeTV "BRACKET" "\x7d"
    pure (AST.objectExpression properties)
      ) := rfl

theorem objLoop_succ (fuel : Nat) (acc : List AST) :
    objLoop (fuel + 1) acc =
      (do
    let mb ← matchTV "BRACKET" "\x7d"
    let t ← peekP
    if !mb && !(t.type == "EOF") then do
      -- Property key
      let mi ← matchTV "BRACKET" "["
      if mi then do
        -- Computed property name
        let _ ← consumeTV "BRACKET" "["
        let key ← parseExpression fuel
        let _ ← consumeTV "BRACKET" "]"
        objValue fuel acc key none true
      else do
        let midf ← matchT "IDENTIFIER"
        if midf then do
          let kt ← consumeT "IDENTIFIER"
          objValue fuel acc (AST.identifier kt.value false) (some kt.value) false
        else do
          let mstr ← matchT "STRING"
          if mstr then do
            let kt ← consumeT "STRING"
            -- Strip quotes
            let kv := String.mk (kt.value.data.drop 1 |>.dropLast)
            objValue fuel acc (AST.identifier kv false) (some kv) false
          else do
            addErrorP "Expected property name in object literal"
            let mcm ← matchTV "PUNCTUATION" ","
            if mcm then do
              let _ ← consumeAny
              objLoop fuel acc
            else objLoop fuel acc
    else pure acc
      ) := rfl

theorem objValue_succ (fuel : Nat) (acc : List AST) (keyNode : AST) (strKey : Option String) (computed : Bool) :
    objValue (fuel + 1) acc keyNode strKey computed =
      (do
    let mcol ← matchTV "PUNCTUATION" ":"
    let val ← do
      if mcol then do
        let _ ← consumeTV "PUNCTUATION" ":"
        let v ← parseExpression fuel
        pure (some v)
      else
        match computed, strKey with
        | false, some k =>
          -- Shorthand property (ES6): { x } => { x: x }
          pure (some (AST.identifier k false))
        | _, _ => do
          addErrorP "Expected \x27:\x27 after property name in object literal"
          let mcm ← matchTV "PUNCTUATION" ","
          if mcm then do
            let _ ← consumeAny
            pure (none : Option AST)
          else pure (none : Option AST)
    match val with
    | none => objLoop fuel acc
    | some v => do
      let acc := acc ++ [AST.property keyNode v computed]
      let mcm ← matchTV "PUNCTUATION" ","
      if mcm then do
        let _ ← consumeAny
        objLoop fuel acc
      else do
        let mb ← matchTV "BRACKET" "\x7d"
        if !mb then do
          addWarningP "Expected \x27,\x27 after property in object literal"
          objLoop fuel acc
        else objLoop fuel acc
      ) := rfl

theorem parseArrayLiteral_succ (fuel : Nat) :
    parseArrayLiteral (fuel + 1) =
      (do
    let _ ← consumeTV "BRACKET" "["
    let elements ← arrLoop fuel []
    let _ ← consumeTV "BRACKET" "]"
    pure (AST.arrayExpression elements)
      ) := rfl

theorem arrLoop_succ (fuel : Nat) (acc : List (Option AST)) :
    arrLoop (fuel + 1) acc =
      (do
    let mb ← matchTV "BRACKET" "]"
    let t ← peekP
    if !mb && !(t.type == "EOF") then do
      let mcm ← matchTV "PUNCTUATION" ","
      if mcm then do
        -- Handle empty elements: [1,,3]
        let _ ← consumeAny
        arrLoop fuel (acc ++ [none])
      else do
        let e ← parseExpression fuel
        let acc := acc ++ [some e]
        let mcm2 ← matchTV "PUNCTUATION" ","
        if mcm2 then do
          let _ ← consumeAny
          arrLoop fuel acc
        else do
          let mb2 ← matchTV "BRACKET" "]"
          if !mb2 then do
            addWarningP "Expected \x27,\x27 after array element"
            arrLoop fuel acc
          else arrLoop fuel acc
    else pure acc
      ) := rfl

theorem parsePrimary_succ (fuel : Nat) :
    parsePrimary (fuel + 1) =
      (do
    let m ← matchTV "KEYWORD" "this"
    if m then do
      let _ ← consumeAny
      pure AST.thisExpression
    else do
    let m ← matchTV "SAAAM_KEYWORD" "vec2"
    if m then do
      let _ ← consumeAny
      let _ ← consumeTV "PUNCTUATION" "("
      let x ← parseExpression fuel
      let _ ← consumeTV "PUNCTUATION" ","
      let y ← parseExpression fuel
      let _ ← consumeTV "PUNCTUATION" ")"
      pure (AST.vec2Expression x y)
    else do
    let m ← matchTV "SAAAM_KEYWORD" "vec3"
    if m then do
      let _ ← consumeAny
      let _ ← consumeTV "PUNCTUATION" "("
      let x ← parseExpression fuel
      let _ ← consumeTV "PUNCTUATION" ","
      let y ← parseExpression fuel
      let _ ← consumeTV "PUNCTUATION" ","
      let z ← parseExpression fuel
      let _ ← consumeTV "PUNCTUATION" ")"
      pure (AST.vec3Expression x y z)
    else do
    let m ← matchT "IDENTIFIER"
    if m then do
      let it ← consumeT "IDENTIFIER"
      -- Check if identifier is predefined in SAAAM
      let isPredefinedVar := predefinedVariables.contains it.value
      let isPredefinedFunc := predefinedFunctions.contains it.value
      pure (AST.identifier it.value (isPredefinedVar || isPredefinedFunc))
    else do
    let m ← matchT "NUMBER"
    if m then do
      let nt ← consumeT "NUMBER"
      -- Literal value: Number.parseFloat(lexeme); the lexeme is stored
      pure (AST.literal (JsVal.num nt.value) none)
    else do
    let m ← matchT "STRING"
    if m then do
      -- Remove the quotes
      let st ← consumeT "STRING"
      pure (AST.literal (JsVal.str (String.mk (st.value.data.drop 1 |>.dropLast)))
        (some st.value))
    else do
    let m ← matchTV "KEYWORD" "true"
    if m then do
      let _ ← consumeAny
      pure (AST.literal (JsVal.bool true) none)
    else do
    let m ← matchTV "KEYWORD" "false"
    if m then do
      let _ ← consumeAny
      pure (AST.literal (JsVal.bool false) none)
    else do
    let m ← matchTV "KEYWORD" "null"
    if m then do
      let _ ← consumeAny
      pure (AST.literal JsVal.null none)
    else do
    let m ← matchTV "KEYWORD" "undefined"
    if m then do
      let _ ← consumeAny
      pure (AST.identifier "undefined" false)
    else do
    let m ← matchTV "BRACKET" "\x7b"
    if m then parseObjectLiteral fuel
    else do
    let m ← matchTV "BRACKET" "["
    if m then parseArrayLiteral fuel
    else do
    let m ← matchTV "PUNCTUATION" "("
    if m then do
      let _ ← consumeAny
      let expr ← parseExpression fuel
      let _ ← consumeTV "PUNCTUATION" ")"
      pure expr
    else do
      let t ← peekP
      addErrorP ("Unexpected token: " ++ t.value)
      throwP ("Unexpected token: " ++ t.value)
      ) := rfl

/-- `parse()`: reset the cursor, run `parseProgram`, catch any exception
and convert it into a `Parsing error: …` diagnostic with a `null` AST. -/
def parse (fuel : Nat) : PM (Option AST) := do
  modifyP (fun s => { s with cur := 0 })
  tryCatchP
    (do
      let a ← parseProgram fuel
      pure (some a))
    (fun e => do
      addErrorP ("Parsing error: " ++ e)
      pure none)

/-! ## Analyser (`analyzeCode`)

`variableUsage` is a JS `Map` from names to a mutable
`{ declared, used }` record: insertion order is preserved, `set` on an
existing key updates the value in place, and the final iteration follows
insertion order. -/

/-- One `variableUsage` entry: `(name, declared, used)`. -/
abbrev UsageMap := List (String × Bool × Bool)

def umFind (m : UsageMap) (name : String) : Option (Bool × Bool) :=
  match m.find? (fun e => e.1 == name) with
  | some e => some e.2
  | none => none

/-- `variableUsage.set(name, v)`: replace in place, or append. -/
def umSet (m : UsageMap) (name : String) (v : Bool × Bool) : UsageMap :=
  match m with
  | [] => [(name, v)]
  | e :: rest =>
    if e.1 == name then (name, v) :: rest
    else e :: umSet rest name v

mutual

/-- The recursive visitor of `analyzeCode`.  The explicitly listed cases
(`VariableDeclaration`, `FunctionDefinition`, `Identifier`, `Program`,
`Block`) mirror the source's `switch`; every other node kind falls into
the generic `for key in node` traversal, which visits the node-valued
(and node-array-valued) fields in object-literal insertion order. -/
def visit (node : AST) (st : UsageMap × List String) :
    UsageMap × List String :=
  match node with
  | .variableDeclaration _ identifier init =>
    let st :=
      match umFind st.1 identifier with
      | some (declared, used) =>
        let warns :=
          if declared then
            st.2 ++ ["Variable \x27" ++ identifier ++ "\x27 is already declared"]
          else st.2
        (umSet st.1 identifier (true, used), warns)
      | none => (st.1 ++ [(identifier, true, false)], st.2)
    (match init with
     | some e => visit e st
     | none => st)
  | .functionDefinition _ params body =>
    -- Function parameters
    let st := (params.foldl (fun m p => umSet m p (true, false)) st.1, st.2)
    visit body st
  | .identifier name _ =>
    -- Skip predefined identifiers
    if predefinedVariables.contains name || predefinedFunctions.contains name
    then st
    else
      match umFind st.1 name with
      | some (declared, _) => (umSet st.1 name (declared, true), st.2)
      | none => (st.1 ++ [(name, false, true)], st.2)
  | .program body => visitList body st
  | .block statements => visitList statements st
  -- generic traversal cases, fields in object-literal order
  | .ifStatement condition consequent alternate =>
    visitOpt alternate (visit consequent (visit condition st))
  | .forLoop init condition update body =>
    visit body (visitOpt update (visitOpt condition (visitOpt init st)))
  | .whileLoop condition body => visit body (visit condition st)
  | .doWhileLoop body condition => visit condition (visit body st)
  | .switchStatement discriminant cases =>
    visitList cases (visit discriminant st)
  | .switchCase test consequent => visitList consequent (visitOpt test st)
  | .returnStatement argument => visitOpt argument st
  | .expressionStatement expression => visit expression st
  | .assignmentExpression _ left right => visit right (visit left st)
  | .binaryExpression _ left right => visit right (visit left st)
  | .unaryExpression _ argument => visit argument st
  | .callExpression callee arguments => visitList arguments (visit callee st)
  | .memberName object _ => visit object st    -- string property: not a node
  | .memberIndex object property => visit property (visit object st)
  | .thisExpression => st
  | .vec2Expression x y => visit y (visit x st)
  | .vec3Expression x y z => visit z (visit y (visit x st))
  | .objectExpression properties => visitList properties st
  | .property key value _ => visit value (visit key st)
  | .arrayExpression elements => visitOpts elements st
  | .literal _ _ => st
  | .breakStatement => st
  | .continueStatement => st
  | .emptyStatement => st

def visitOpt (o : Option AST) (st : UsageMap × List String) :
    UsageMap × List String :=
  match o with
  | some x => visit x st
  | none => st

def visitList (l : List AST) (st : UsageMap × List String) :
    UsageMap × List String :=
  match l with
  | [] => st
  | x :: xs => visitList xs (visit x st)

def visitOpts (l : List (Option AST)) (st : UsageMap × List String) :
    UsageMap × List String :=
  match l with
  | [] => st
  | x :: xs => visitOpts xs (visitOpt x st)

end

/-- `analyzeCode()`: traverse the AST, then warn about unused/undeclared
variables in insertion order. -/
def analyzeCode (ast : Option AST) (warnings : List String) : List String :=
  match ast with
  | none => warnings
  | some a =>
    let st := visit a ([], warnings)
    st.1.foldl
      (fun ws e =>
        let ws :=
          if e.2.1 && !e.2.2 then
            ws ++ ["Variable \x27" ++ e.1 ++ "\x27 is declared but never used"]
          else ws
        if !e.2.1 && e.2.2 then
          -- Skip global/built-in variables
          if !(predefinedVariables.contains e.1) &&
             !(predefinedFunctions.contains e.1) then
            ws ++ ["Variable \x27" ++ e.1 ++ "\x27 is used but not declared"]
          else ws
        else ws)
      st.2

/-! ## Code generator (`generate`, `generateNode`) -/

/-- `code.split("\n")` on the character list: split at every line feed;
the empty string yields one empty line, like the JS `String.split`. -/
def splitNl : List Char → List (List Char)
  | [] => [[]]
  | c :: r =>
    if c == '\n' then [] :: splitNl r
    else
      match splitNl r with
      | h :: t => (c :: h) :: t
      | [] => [[c]]

/-- `Array.prototype.join(sep)`. -/
def joinSep (sep : String) : List String → String
  | [] => ""
  | [x] => x
  | x :: y :: rest => x ++ sep ++ joinSep sep (y :: rest)

/-- `this.indent(code)`: two spaces in front of every line
(`code.split("\n").map(l => "  " + l).join("\n")`). -/
def indentStr (code : String) : String :=
  joinSep "\n" ((splitNl code.data).map (fun line => "  " ++ String.mk line))

/-- Escape double quotes in a string-literal payload:
`value.replace(/"/g, PATTERN)` with the pattern a backslash + quote. -/
def escQuotes (s : String) : String :=
  String.mk (s.data.foldr
    (fun c acc => if c == '"' then '\\' :: '"' :: acc else c :: acc) [])

/-- The JS `type` discriminator of a node (used in the emitter's
unknown-node placeholder). -/
def astTypeName : AST → String
  | .program _ => "Program"
  | .variableDeclaration _ _ _ => "VariableDeclaration"
  | .functionDefinition _ _ _ => "FunctionDefinition"
  | .block _ => "Block"
  | .ifStatement _ _ _ => "IfStatement"
  | .forLoop _ _ _ _ => "ForLoop"
  | .whileLoop _ _ => "WhileLoop"
  | .doWhileLoop _ _ => "DoWhileLoop"
  | .switchStatement _ _ => "SwitchStatement"
  | .switchCase _ _ => "SwitchCase"
  | .returnStatement _ => "ReturnStatement"
  | .breakStatement => "BreakStatement"
  | .continueStatement => "ContinueStatement"
  | .emptyStatement => "EmptyStatement"
  | .expressionStatement _ => "ExpressionStatement"
  | .assignmentExpression _ _ _ => "AssignmentExpression"
  | .binaryExpression _ _ _ => "BinaryExpression"
  | .unaryExpression _ _ => "UnaryExpression"
  | .callExpression _ _ => "CallExpression"
  | .memberName _ _ => "MemberExpression"
  | .memberIndex _ _ => "MemberExpression"
  | .thisExpression => "ThisExpression"
  | .vec2Expression _ _ => "Vec2Expression"
  | .vec3Expression _ _ _ => "Vec3Expression"
  | .objectExpression _ => "ObjectExpression"
  | .property _ _ _ => "Property"
  | .arrayExpression _ => "ArrayExpression"
  | .identifier _ _ => "Identifier"
  | .literal _ _ => "Literal"

/-- The JS string interpolation of a literal key's `value` (used for the
dead `"${prop.key.value}"` branch of `ObjectExpression`). -/
def jsValText : JsVal → String
  | .num raw => raw
  | .str s => s
  | .bool b => if b then "true" else "false"
  | .null => "null"

mutual

/-- `generateNode(node)`.  The `Identifier` case is the emission rewrite
table: a fixed set of SAAAM identifiers is rewritten to `SAAAM.…` host
forms, and every other name is emitted verbatim.  The JS default case also
pushes an `Unknown node type …` warning; that branch is only reachable for
a `SwitchCase`/`Property` node outside its parent construct, which the
parser never produces, and the warning push is not modelled. -/
def generateNode : AST → String
  | .program body => joinSep "\n" (genList body)
  | .variableDeclaration kind identifier init =>
    (match init with
     | some e => kind ++ " " ++ identifier ++ " = " ++ generateNode e
     | none => kind ++ " " ++ identifier) ++ ";"
  | .functionDefinition name params body =>
    "function " ++ name ++ "(" ++ joinSep ", " params ++ ") " ++
      generateNode body
  | .block statements =>
    "\x7b\n" ++ indentStr (joinSep "\n" (genList statements)) ++
      "\n\x7d"
  | .expressionStatement expression => generateNode expression ++ ";"
  | .ifStatement condition consequent alternate =>
    "if (" ++ generateNode condition ++ ") " ++ generateNode consequent ++
      (match alternate with
       | some a => " else " ++ generateNode a
       | none => "")
  | .forLoop init condition update body =>
    let initStr :=
      match init with
      | some i =>
        generateNode i ++
          (match i with
           | .variableDeclaration _ _ _ => ""
           | _ => ";")
      | none => ""
    let condStr :=
      match condition with
      | some c => generateNode c
      | none => "true"
    let updateStr :=
      match update with
      | some u => generateNode u
      | none => ""
    "for (" ++ initStr ++ " " ++ condStr ++ "; " ++ updateStr ++ ") " ++
      generateNode body
  | .whileLoop condition body =>
    "while (" ++ generateNode condition ++ ") " ++ generateNode body
  | .doWhileLoop body condition =>
    "do " ++ generateNode body ++ " while (" ++ generateNode condition ++ ");"
  | .switchStatement discriminant cases =>
    "switch (" ++ generateNode discriminant ++ ") \x7b\n" ++
      genCases cases ++ "\x7d"
  | .returnStatement argument =>
    (match argument with
     | some a => "return " ++ generateNode a ++ ";"
     | none => "return;")
  | .breakStatement => "break;"
  | .continueStatement => "continue;"
  | .emptyStatement => ";"
  | .assignmentExpression operator left right =>
    generateNode left ++ " " ++ operator ++ " " ++ generateNode right
  | .binaryExpression operator left right =>
    generateNode left ++ " " ++ operator ++ " " ++ generateNode right
  | .unaryExpression operator argument =>
    operator ++ generateNode argument
  | .callExpression callee arguments =>
    generateNode callee ++ "(" ++ joinSep ", " (genList arguments)
      ++ ")"
  | .memberName object property =>
    generateNode object ++ "." ++ property
  | .memberIndex object property =>
    generateNode object ++ "[" ++ generateNode property ++ "]"
  | .thisExpression => "this"
  | .vec2Expression x y =>
    -- Translate vec2 to an object creation
    "\x7b x: " ++ generateNode x ++ ", y: " ++ generateNode y ++ " \x7d"
  | .vec3Expression x y z =>
    "\x7b x: " ++ generateNode x ++ ", y: " ++ generateNode y ++ ", z: " ++
      generateNode z ++ " \x7d"
  | .objectExpression properties =>
    if properties.isEmpty then "\x7b\x7d"
    else "\x7b " ++ joinSep ", " (genProps properties) ++ " \x7d"
  | .arrayExpression elements =>
    "[" ++ joinSep ", " (genOpts elements) ++ "]"
  | .identifier name _ =>
    -- Special handling for SAAAM identifiers that need conversion
    if name == "keyboard_check" then "SAAAM.keyboardCheck"
    else if name == "keyboard_check_pressed" then "SAAAM.keyboardCheckPressed"
    else if name == "keyboard_check_released" then "SAAAM.keyboardCheckReleased"
    else if name == "draw_sprite" then "SAAAM.drawSprite"
    else if name == "draw_text" then "SAAAM.drawText"
    else if name == "draw_rectangle" then "SAAAM.drawRectangle"
    else if name == "draw_circle" then "SAAAM.drawCircle"
    else if name == "draw_line" then "SAAAM.drawLine"
    else if name == "play_sound" then "SAAAM.playSound"
    else if name == "play_music" then "SAAAM.playMusic"
    else if name == "check_collision" then "SAAAM.checkCollision"
    else if name == "point_distance" then "SAAAM.pointDistance"
    else if name == "delta_time" then "SAAAM.deltaTime"
    else if name == "current_time" then "SAAAM.currentTime"
    else if name == "vk_left" then "SAAAM.vk.left"
    else if name == "vk_right" then "SAAAM.vk.right"
    else if name == "vk_up" then "SAAAM.vk.up"
    else if name == "vk_down" then "SAAAM.vk.down"
    else if name == "vk_space" then "SAAAM.vk.space"
    else if name == "vk_enter" then "SAAAM.vk.enter"
    else if name == "vk_escape" then "SAAAM.vk.escape"
    else if name == "vk_shift" then "SAAAM.vk.shift"
    else name
  | .literal value _ =>
    (match value with
     | .str s => "\"" ++ escQuotes s ++ "\""
     | .null => "null"
     | .num raw => raw                      -- `value.toString()` of the parsed numeral
     | .bool b => if b then "true" else "false")
  | .switchCase _ _ => "/* Unknown node type: SwitchCase */"
  | .property _ _ _ => "/* Unknown node type: Property */"

def genList : List AST → List String
  | [] => []
  | x :: xs => generateNode x :: genList xs

/-- Array elements: a hole (`null`) prints as the empty string. -/
def genOpts : List (Option AST) → List String
  | [] => []
  | none :: xs => "" :: genOpts xs
  | some x :: xs => generateNode x :: genOpts xs

/-- Object-literal properties.  A non-computed key is always an
`Identifier` wrapped by the parser; a literal key prints through the
(otherwise dead) `"${prop.key.value}"` branch. -/
def genProps : List AST → List String
  | [] => []
  | .property key value computed :: xs =>
    (if computed then
      "[" ++ generateNode key ++ "]: " ++ generateNode value
     else
      (match key with
       | .identifier n _ => n
       | .literal v _ => "\"" ++ jsValText v ++ "\""
       | _ => "\"undefined\"") ++ ": " ++ generateNode value) :: genProps xs
  | x :: xs =>
    -- not a Property node: unreachable from the parser
    ("/* Unknown node type: " ++ astTypeName x ++ " */") :: genProps xs

/-- The `switch` case loop: each clause prints its header and its
indented consequent statements.  A non-`SwitchCase` element is unreachable
from the parser (the JS code would fault there). -/
def genCases : List AST → String
  | [] => ""
  | .switchCase test consequent :: xs =>
    (match test with
     | none => "default:\n"
     | some t => "case " ++ generateNode t ++ ":\n") ++
      genConsequent consequent ++ genCases xs
  | x :: xs =>
    ("/* Unknown node type: " ++ astTypeName x ++ " */") ++ genCases xs

def genConsequent : List AST → String
  | [] => ""
  | s :: xs => indentStr (generateNode s) ++ "\n" ++ genConsequent xs

end

/-- `generate()`. -/
def generate (ast : Option AST) : String :=
  match ast with
  | none => "// No AST to generate code from"
  | some a => generateNode a

/-! ## Compiler facade (`compile`, `compileToJS`) -/

/-- The result record of `compile`. -/
structure CompileResult where
  success : Bool
  js : Option String
  errors : List String
  warnings : List String
  ast : Option AST

/-- A fuel bound for the parser; recursion depth is far below this for any
input (every parser call consumes one unit, and both the call depth and the
number of loop iterations are bounded by a small multiple of the token
count, which is at most the source length). -/
def compileFuel (code : String) : Nat := 100 * (code.length + 2)

/-- `compile(code)`: reset, tokenize, parse, analyse, (no-op) optimize,
generate, and assemble the result.  `success` is `errors.length === 0`.
The outer `try/catch` of the source converts an escaped exception into a
`Compilation error: …` diagnostic.  Caveat: in this fuel model a
non-terminating run of the original surfaces as an `out of fuel` failure,
so a result whose errors mention fuel exhaustion must not be read as a
terminating run of the source (`claim_c9_object_literal_hang`). -/
def compile (code : String) : CompileResult :=
  let lexed := tokenize code
  let st0 : PSt := { tokens := lexed.1, cur := 0, errors := lexed.2,
                     warnings := [] }
  match parse (compileFuel code) st0 with
  | (Except.ok astOpt, st) =>
    let warnings := analyzeCode astOpt st.warnings
    -- optimizeCode(): future implementation, no effect
    let js := generate astOpt
    { success := st.errors.isEmpty
      js := some js
      errors := st.errors
      warnings := warnings
      ast := astOpt }
  | (Except.error e, st) =>
    { success := false
      js := none
      errors := st.errors ++ ["Compilation error: " ++ e]
      warnings := st.warnings
      ast := none }

/-- `compileToJS(code)`: on failure, a comment-only header listing the
errors; on success, the runtime wrapper with the unconditional (typeof-
guarded) lifecycle registration epilogue. -/
def compileToJS (code : String) : String :=
  let result := compile code
  if !result.success then
    "// Compilation failed with errors:\n// " ++
      joinSep "\n// " result.errors
  else
    let compiledCode := result.js.getD ""
    "\n// Compiled SAAAM code\n(function(SAAAM) \x7b\n" ++
      indentStr compiledCode ++
      "\n\n// Register lifecycle functions with SAAAM engine\nif (typeof create === \x27function\x27) SAAAM.registerCreate(create);\nif (typeof step === \x27function\x27) SAAAM.registerStep(step);\nif (typeof draw === \x27function\x27) SAAAM.registerDraw(draw);\nif (typeof on_collision === \x27function\x27) SAAAM.registerCollision(on_collision);\n\n\x7d)(SAAAM || \x7b\x7d);\n"

/-! ## Substring containment -/

/-- Does `p` occur as a contiguous sublist of `l`? -/
def listContainsSub (p : List Char) : List Char → Bool
  | [] => p.isEmpty
  | c :: t => p.isPrefixOf (c :: t) || listContainsSub p t

/-- Does `pat` occur as a substring of `s`? -/
def containsSub (s pat : String) : Bool := listContainsSub pat.data s.data

theorem listContainsSub_append_right {p b : List Char}
    (h : listContainsSub p b = true) (a : List Char) :
    listContainsSub p (a ++ b) = true := by
  induction a with
  | nil => simpa using h
  | cons c a ih =>
    have : listContainsSub p (c :: (a ++ b)) =
        (p.isPrefixOf (c :: (a ++ b)) || listContainsSub p (a ++ b)) := rfl
    simp [this, ih]

theorem containsSub_append_right {b pat : String}
    (h : containsSub b pat = true) (a : String) :
    containsSub (a ++ b) pat = true := by
  unfold containsSub at *
  rw [String.data_append]
  exact listContainsSub_append_right h _

/-- The emission rewrite table of the specification (§3, §6): intrinsic
identifier → host-namespaced emission form.  Entries are listed in the
order of the `switch` cases of `generateNode`'s `Identifier` branch. -/
def rewriteTable : List (String × String) :=
  [("keyboard_check", "SAAAM.keyboardCheck"),
   ("keyboard_check_pressed", "SAAAM.keyboardCheckPressed"),
   ("keyboard_check_released", "SAAAM.keyboardCheckReleased"),
   ("draw_sprite", "SAAAM.drawSprite"),
   ("draw_text", "SAAAM.drawText"),
   ("draw_rectangle", "SAAAM.drawRectangle"),
   ("draw_circle", "SAAAM.drawCircle"),
   ("draw_line", "SAAAM.drawLine"),
   ("play_sound", "SAAAM.playSound"),
   ("play_music", "SAAAM.playMusic"),
   ("check_collision", "SAAAM.checkCollision"),
   ("point_distance", "SAAAM.pointDistance"),
   ("delta_time", "SAAAM.deltaTime"),
   ("current_time", "SAAAM.currentTime"),
   ("vk_left", "SAAAM.vk.left"),
   ("vk_right", "SAAAM.vk.right"),
   ("vk_up", "SAAAM.vk.up"),
   ("vk_down", "SAAAM.vk.down"),
   ("vk_space", "SAAAM.vk.space"),
   ("vk_enter", "SAAAM.vk.enter"),
   ("vk_escape", "SAAAM.vk.escape"),
   ("vk_shift", "SAAAM.vk.shift")]

/-- The names of the top-level function declarations of a program AST. -/
def topLevelFunctionNames : Option AST → List String
  | some (AST.program body) =>
    body.filterMap fun n =>
      match n with
      | AST.functionDefinition name _ _ => some name
      | _ => none
  | _ => []

/-- Whether a node is a `SwitchCase` with `test == null` (a `default`
clause). -/
def isDefaultCase : AST → Bool
  | AST.switchCase none _ => true
  | _ => false

set_option maxRecDepth 8192

/-! ## The claims -/

/-- C1.  The spec's scenario S1 expects compiling the three lifecycle
declarations to succeed and emit the three registration calls.  The code
disagrees: lifecycle names (`create`, `step`, `draw`) are lexed as
`SAAAM_KEYWORD` tokens, while `parseFunctionDefinition` demands an
`IDENTIFIER` for the function name, so every declaration fails with
"Expected token of type IDENTIFIER, but got SAAAM_KEYWORD", `success` is
`false`, and `compileToJS` returns only the comment-only failure header
(with no registration call). -/
theorem claim_c1_lifecycle_fails :
    (compile "function create()\x7b \x7d\nfunction step(dt)\x7b \x7d\nfunction draw(ctx)\x7b \x7d").success = false ∧
    (compile "function create()\x7b \x7d\nfunction step(dt)\x7b \x7d\nfunction draw(ctx)\x7b \x7d").errors.head? =
      some "Expected token of type IDENTIFIER, but got SAAAM_KEYWORD" ∧
    containsSub (compileToJS "function create()\x7b \x7d\nfunction step(dt)\x7b \x7d\nfunction draw(ctx)\x7b \x7d")
      "// Compilation failed with errors:" = true ∧
    containsSub (compileToJS "function create()\x7b \x7d\nfunction step(dt)\x7b \x7d\nfunction draw(ctx)\x7b \x7d")
      "SAAAM.registerCreate(create)" = false := by
  refine ⟨by decide, by decide, by decide, by decide⟩

/-- C3.  The claim states that `&&` is lexed as one two-character
`OPERATOR` token and parsed into a `BinaryExpression`.  The code
disagrees: in `^[+\\-*/=<>!&|^%]=?|&&|...` the `^` anchors only the first
alternative, so at the start of the remaining text `&&` always matches the
class form as the single operator `&` (second conjunct), and an `&&` token
can only arise from the unanchored alternative matching at a later offset
— mispositioned at the offset of the preceding character and consuming the
wrong two characters, which leaves a stray `&` token behind.  On `a && b`
the parse then fails with "Unexpected token: &" and no `BinaryExpression`
is produced. -/
theorem claim_c3_amp_hijack :
    (tokenize "a && b").1 =
      [⟨"IDENTIFIER", "a", 0⟩, ⟨"OPERATOR", "&&", 1⟩, ⟨"OPERATOR", "&", 3⟩,
       ⟨"IDENTIFIER", "b", 5⟩, ⟨"EOF", "", 6⟩] ∧
    matchOperator ['&', '&'] = some ['&'] ∧
    (compile "a && b").success = false ∧
    (compile "a && b").errors =
      ["Unexpected token: &", "Parse error: Unexpected token: &"] := by
  refine ⟨by decide, by decide, by decide, by decide⟩

/-- C4 (counterexample).  The claim states the emitter runs iff no ERROR
was recorded, and that on failure the emitted text is null or
comment-only.  On `"@ var x = 1;"` the lexer records an error, yet
`compile` still runs the emitter and returns the executable program text
`var x = 1;` in `js` while `success` is `false`. -/
theorem claim_c4_counterexample :
    (compile "@ var x = 1;").success = false ∧
    (compile "@ var x = 1;").errors =
      ["Unexpected character at position 0: \x27@\x27"] ∧
    (compile "@ var x = 1;").js = some "var x = 1;" := by
  refine ⟨by decide, by decide, by decide⟩

/-- C4 (amended).  `compile` always runs the emitter once parsing has
returned, and its `js` field may hold generated code even on failure; the
public `compileToJS`, however, returns exactly the comment-only header
listing all recorded error messages whenever `success` is `false`. -/
theorem claim_c4_amended (code : String)
    (h : (compile code).success = false) :
    compileToJS code = "// Compilation failed with errors:\n// " ++
      joinSep "\n// " (compile code).errors := by
  unfold compileToJS
  simp [h]

theorem claim_c4_witness :
    (compile "@").success = false ∧
    compileToJS "@" = "// Compilation failed with errors:\n// " ++
      joinSep "\n// " (compile "@").errors :=
  ⟨by decide, claim_c4_amended "@" (by decide)⟩

/-- C2 (counterexample).  The claim says a registration call appears in
the output iff the corresponding lifecycle function is declared.  The
code emits all four (typeof-guarded) registration calls unconditionally:
compiling `var x = 1;` succeeds, declares no function at all, and the
output still contains every registration call. -/
theorem claim_c2_counterexample :
    (compile "var x = 1;").success = true ∧
    topLevelFunctionNames (compile "var x = 1;").ast = [] ∧
    containsSub (compileToJS "var x = 1;") "SAAAM.registerCreate(create)" = true ∧
    containsSub (compileToJS "var x = 1;") "SAAAM.registerStep(step)" = true ∧
    containsSub (compileToJS "var x = 1;") "SAAAM.registerDraw(draw)" = true ∧
    containsSub (compileToJS "var x = 1;") "SAAAM.registerCollision(on_collision)" = true := by
  refine ⟨by decide, by decide, by decide, by decide, by decide, by decide⟩

/-- C2 (amended).  Whenever compilation succeeds, the emitted output
contains all four registration calls `SAAAM.registerCreate(create)`,
`SAAAM.registerStep(step)`, `SAAAM.registerDraw(draw)` and
`SAAAM.registerCollision(on_collision)`, each guarded by a runtime
`typeof` check — their presence in the text does not depend on which
lifecycle functions were declared. -/
theorem claim_c2_amended (code : String)
    (h : (compile code).success = true) :
    containsSub (compileToJS code) "SAAAM.registerCreate(create)" = true ∧
    containsSub (compileToJS code) "SAAAM.registerStep(step)" = true ∧
    containsSub (compileToJS code) "SAAAM.registerDraw(draw)" = true ∧
    containsSub (compileToJS code) "SAAAM.registerCollision(on_collision)" = true := by
  unfold compileToJS
  simp only [h, Bool.not_true, Bool.false_eq_true, if_false]
  refine ⟨?_, ?_, ?_, ?_⟩ <;>
    exact containsSub_append_right (by decide) _

theorem claim_c2_witness :
    (compile "var x = 0;").success = true ∧
    containsSub (compileToJS "var x = 0;") "SAAAM.registerCreate(create)" = true :=
  ⟨by decide, (claim_c2_amended "var x = 0;" (by decide)).1⟩

/-- C6.  The claim says that at an offset where no lexical rule matches,
the lexer records one error naming the character and skips one byte.  The
code disagrees: the error branch fires only when no rule matches anywhere
in the remaining text.  On `@:` no rule matches at the `@`, yet the
unanchored `[?:]` operator alternative matches the later `:`, so the lexer
silently emits a phantom `OPERATOR ":"` token positioned at the `@` and
consumes the `@` — no error is recorded (first two conjuncts).  The
claimed behaviour only occurs when every rule fails outright, as on `@`
alone (next two conjuncts); the last conjunct is the general one-error,
one-byte recovery equation under that weaker guard. -/
theorem claim_c6_phantom_token :
    (tokenize "@:").1 =
      [⟨"OPERATOR", ":", 0⟩, ⟨"OPERATOR", ":", 1⟩, ⟨"EOF", "", 2⟩] ∧
    (tokenize "@:").2 = [] ∧
    (tokenize "@").1 = [⟨"EOF", "", 1⟩] ∧
    (tokenize "@").2 = ["Unexpected character at position 0: \x27@\x27"] ∧
    (∀ (fuel : Nat) (c : Char) (rest : List Char) (pos : Nat),
       matchFirst (c :: rest) = none →
       tokenizeAux (fuel + 1) (c :: rest) pos =
         ((tokenizeAux fuel rest (pos + 1)).1,
          ("Unexpected character at position " ++ toString pos ++ ": \x27" ++
            String.mk [c] ++ "\x27") :: (tokenizeAux fuel rest (pos + 1)).2)) := by
  refine ⟨by decide, by decide, by decide, by decide, ?_⟩
  intro fuel c rest pos h
  simp only [tokenizeAux, h]

/-- C5.  Identifier emission: every identifier in the rewrite table is
emitted as its mapped host-namespaced target (for either value of the
`isPredefined` flag), every identifier outside the table is emitted
verbatim, and the spec's scenario S2 compiles with `success = true` to an
output containing `SAAAM.keyboardCheck(SAAAM.vk.space)` and containing
neither bare `keyboard_check` nor bare `vk_space`. -/
theorem claim_c5_rewrite_table :
    (∀ (name : String) (b : Bool), (∀ q ∈ rewriteTable, name ≠ q.1) →
      generateNode (AST.identifier name b) = name) ∧
    (∀ q ∈ rewriteTable, ∀ b : Bool,
      generateNode (AST.identifier q.1 b) = q.2) ∧
    (compile "var v = keyboard_check(vk_space);").success = true ∧
    containsSub (compileToJS "var v = keyboard_check(vk_space);")
      "SAAAM.keyboardCheck(SAAAM.vk.space)" = true ∧
    containsSub (compileToJS "var v = keyboard_check(vk_space);")
      "keyboard_check" = false ∧
    containsSub (compileToJS "var v = keyboard_check(vk_space);")
      "vk_space" = false := by
  refine ⟨?_, by decide, by decide, by decide, by decide, by decide⟩
  intro name b h
  have e1 : (name == "keyboard_check") = false := by
    simp [h ("keyboard_check", "SAAAM.keyboardCheck") (by decide)]
  have e2 : (name == "keyboard_check_pressed") = false := by
    simp [h ("keyboard_check_pressed", "SAAAM.keyboardCheckPressed") (by decide)]
  have e3 : (name == "keyboard_check_released") = false := by
    simp [h ("keyboard_check_released", "SAAAM.keyboardCheckReleased") (by decide)]
  have e4 : (name == "draw_sprite") = false := by
    simp [h ("draw_sprite", "SAAAM.drawSprite") (by decide)]
  have e5 : (name == "draw_text") = false := by
    simp [h ("draw_text", "SAAAM.drawText") (by decide)]
  have e6 : (name == "draw_rectangle") = false := by
    simp [h ("draw_rectangle", "SAAAM.drawRectangle") (by decide)]
  have e7 : (name == "draw_circle") = false := by
    simp [h ("draw_circle", "SAAAM.drawCircle") (by decide)]
  have e8 : (name == "draw_line") = false := by
    simp [h ("draw_line", "SAAAM.drawLine") (by decide)]
  have e9 : (name == "play_sound") = false := by
    simp [h ("play_sound", "SAAAM.playSound") (by decide)]
  have e10 : (name == "play_music") = false := by
    simp [h ("play_music", "SAAAM.playMusic") (by decide)]
  have e11 : (name == "check_collision") = false := by
    simp [h ("check_collision", "SAAAM.checkCollision") (by decide)]
  have e12 : (name == "point_distance") = false := by
    simp [h ("point_distance", "SAAAM.pointDistance") (by decide)]
  have e13 : (name == "delta_time") = false := by
    simp [h ("delta_time", "SAAAM.deltaTime") (by decide)]
  have e14 : (name == "current_time") = false := by
    simp [h ("current_time", "SAAAM.currentTime") (by decide)]
  have e15 : (name == "vk_left") = false := by
    simp [h ("vk_left", "SAAAM.vk.left") (by decide)]
  have e16 : (name == "vk_right") = false := by
    simp [h ("vk_right", "SAAAM.vk.right") (by decide)]
  have e17 : (name == "vk_up") = false := by
    simp [h ("vk_up", "SAAAM.vk.up") (by decide)]
  have e18 : (name == "vk_down") = false := by
    simp [h ("vk_down", "SAAAM.vk.down") (by decide)]
  have e19 : (name == "vk_space") = false := by
    simp [h ("vk_space", "SAAAM.vk.space") (by decide)]
  have e20 : (name == "vk_enter") = false := by
    simp [h ("vk_enter", "SAAAM.vk.enter") (by decide)]
  have e21 : (name == "vk_escape") = false := by
    simp [h ("vk_escape", "SAAAM.vk.escape") (by decide)]
  have e22 : (name == "vk_shift") = false := by
    simp [h ("vk_shift", "SAAAM.vk.shift") (by decide)]
  simp only [generateNode, e1, e2, e3, e4, e5, e6, e7, e8, e9, e10, e11,
    e12, e13, e14, e15, e16, e17, e18, e19, e20, e21, e22,
    Bool.false_eq_true, if_false]

theorem claim_c5_witness :
    (∀ q ∈ rewriteTable, "player_score" ≠ q.1) ∧
    generateNode (AST.identifier "player_score" false) = "player_score" :=
  ⟨by decide, claim_c5_rewrite_table.1 "player_score" false (by decide)⟩

/-- Every token type produced by a successful rule match is one of the
fixed rule names; in particular it is never `"EOF"`. -/
theorem matchFirst_type_ne_eof {s : List Char} {ty : String} {ig : Bool}
    {l : List Char} (h : matchFirst s = some (ty, ig, l)) : ty ≠ "EOF" := by
  unfold matchFirst at h
  split at h
  · cases h; decide
  split at h
  · cases h; decide
  split at h
  · cases h; decide
  split at h
  · cases h; decide
  split at h
  · cases h; decide
  split at h
  · cases h; decide
  split at h
  · cases h; decide
  split at h
  · cases h; decide
  split at h
  · cases h; decide
  split at h
  · cases h; decide
  · exact absurd h (by simp)

/-- Position invariants of the scanning loop: every emitted token lies in
`[pos, pos + rem.length)`, is not an `EOF` token, and positions are
strictly increasing. -/
theorem tokenizeAux_invariants :
    ∀ (fuel : Nat) (rem : List Char) (pos : Nat),
      (∀ t ∈ (tokenizeAux fuel rem pos).1,
        pos ≤ t.position ∧ t.position < pos + rem.length ∧ t.type ≠ "EOF") ∧
      List.Chain' (fun a b => a.position < b.position)
        (tokenizeAux fuel rem pos).1 := by
  intro fuel
  induction fuel with
  | zero =>
    intro rem pos
    cases rem <;> simp [tokenizeAux]
  | succ fuel ih =>
    intro rem pos
    match rem with
    | [] => simp [tokenizeAux]
    | c :: rest =>
      rw [tokenizeAux]
      cases hm : matchFirst (c :: rest) with
      | none =>
        dsimp only
        obtain ⟨ihb, ihc⟩ := ih rest (pos + 1)
        refine ⟨?_, ihc⟩
        intro t ht
        obtain ⟨h1, h2, h3⟩ := ihb t ht
        refine ⟨by omega, by simp only [List.length_cons]; omega, h3⟩
      | some v =>
        obtain ⟨ty, ig, lex⟩ := v
        dsimp only
        have hne := (matchFirst_sound hm).1
        have hle := matchFirst_le hm
        have hpos : 1 ≤ lex.length := by
          cases lex with
          | nil => exact absurd rfl hne
          | cons a b => simp
        have hdlen : ((c :: rest).drop lex.length).length =
            (c :: rest).length - lex.length := by
          simp [List.length_drop]
        obtain ⟨ihb, ihc⟩ := ih ((c :: rest).drop lex.length) (pos + lex.length)
        have hbnd : ∀ t ∈ (tokenizeAux fuel ((c :: rest).drop lex.length)
            (pos + lex.length)).1,
            pos ≤ t.position ∧ t.position < pos + (c :: rest).length ∧
              t.type ≠ "EOF" := by
          intro t ht
          obtain ⟨h1, h2, h3⟩ := ihb t ht
          rw [hdlen] at h2
          simp only [List.length_cons] at *
          refine ⟨by omega, by omega, h3⟩
        cases ig with
        | true => exact ⟨hbnd, ihc⟩
        | false =>
          simp only [Bool.false_eq_true, if_false]
          refine ⟨?_, ?_⟩
          · intro t ht
            simp only [List.mem_cons] at ht
            rcases ht with rfl | ht
            · refine ⟨le_rfl, ?_, matchFirst_type_ne_eof hm⟩
              simp only [List.length_cons]
              omega
            · exact hbnd t ht
          · rw [List.chain'_cons']
            refine ⟨?_, ihc⟩
            intro b hb
            have hmem : b ∈ (tokenizeAux fuel ((c :: rest).drop lex.length)
                (pos + lex.length)).1 := List.mem_of_mem_head? hb
            have := (ihb b hmem).1
            simp only
            omega

/-- C8.  For every source string, lexing terminates (by construction) and
the token stream ends with exactly one `EOF` token whose position is the
source length; token positions are strictly increasing and bounded by the
source length. -/
theorem claim_c8_lexer_totality (s : String) :
    (tokenize s).1 ≠ [] ∧
    (tokenize s).1.getLast? = some ⟨"EOF", "", s.length⟩ ∧
    ((tokenize s).1.filter (fun t => t.type == "EOF")).length = 1 ∧
    List.Chain' (fun a b => a.position < b.position) (tokenize s).1 ∧
    ∀ t ∈ (tokenize s).1, t.position ≤ s.length := by
  unfold tokenize
  dsimp only
  obtain ⟨hb, hc⟩ := tokenizeAux_invariants s.data.length s.data 0
  have hlen : s.length = s.data.length := rfl
  refine ⟨by simp, ?_, ?_, ?_, ?_⟩
  · simp
  · rw [List.filter_append]
    have h0 : (tokenizeAux s.data.length s.data 0).1.filter
        (fun t => t.type == "EOF") = [] := by
      rw [List.filter_eq_nil_iff]
      intro t ht
      have := (hb t ht).2.2
      simpa using this
    rw [h0]
    simp
  · rw [List.chain'_append]
    refine ⟨hc, by simp, ?_⟩
    intro x hx y hy
    have hxm : x ∈ (tokenizeAux s.data.length s.data 0).1 :=
      List.mem_of_mem_getLast? hx
    have := (hb x hxm).2.1
    simp only [List.head?_cons, Option.mem_def, Option.some.injEq] at hy
    subst hy
    simp only
    omega
  · intro t ht
    simp only [List.mem_append, List.mem_singleton] at ht
    rcases ht with ht | rfl
    · have := (hb t ht).2.1
      omega
    · simp

/-- The token stream of `var v = {1};`: it lexes cleanly, and index 4
holds the `NUMBER "1"` token at which `parseObjectLiteral` looks for a
property name. -/
def c9Tokens : List Token :=
  [⟨"KEYWORD", "var", 0⟩, ⟨"IDENTIFIER", "v", 4⟩, ⟨"OPERATOR", "=", 6⟩,
   ⟨"BRACKET", "\x7b", 8⟩, ⟨"NUMBER", "1", 9⟩, ⟨"BRACKET", "\x7d", 10⟩,
   ⟨"PUNCTUATION", ";", 11⟩, ⟨"EOF", "", 12⟩]

/-- The property-name error branch of the object-literal loop consumes no
token when the offending token is not a comma, so the loop re-examines the
same token forever: at every fuel bound it fails only by exhausting the
bound, with the cursor unchanged and one copy of the diagnostic appended
per iteration.  In the unbounded original this is an infinite loop. -/
theorem objLoop_stuck :
    ∀ (fuel : Nat) (errs warns : List String),
      objLoop fuel [] ⟨c9Tokens, 4, errs, warns⟩ =
        (Except.error "out of fuel",
         ⟨c9Tokens, 4,
          errs ++ List.replicate fuel "Expected property name in object literal",
          warns⟩) := by
  intro fuel
  induction fuel with
  | zero =>
    intro errs warns
    simp only [List.replicate, List.append_nil]
    rfl
  | succ fuel ih =>
    intro errs warns
    have hg : c9Tokens.getD 4 oobToken = ⟨"NUMBER", "1", 9⟩ := rfl
    rw [objLoop_succ]
    simp only [bind_apply, matchTV_apply, matchT_apply, peekP_apply,
      addErrorP_apply, pure_apply, hg, String.reduceBEq,
      Bool.false_and, Bool.and_false, Bool.true_and, Bool.and_true,
      Bool.not_true, Bool.not_false, Bool.false_eq_true, Bool.and_self,
      if_true, if_false]
    rw [ih]
    simp [List.replicate_succ, List.append_assoc]

/-- C9.  The spec claims `compile` always returns a structured result.
The code disagrees: `var v = {1};` lexes cleanly (first conjunct), but
inside the object literal the property-name error branch consumes nothing
for a non-comma token, so the `while` loop never terminates — formally,
the loop (and hence `parseObjectLiteral`) fails at every fuel bound only
by fuel exhaustion, with the cursor stuck at the `NUMBER "1"` token
(second and third conjuncts).  The real, unbounded `compile` therefore
never returns on this input, and its try/catch machinery never gets the
chance to convert anything into a diagnostic. -/
theorem claim_c9_object_literal_hang :
    tokenize "var v = \x7b1\x7d;" = (c9Tokens, []) ∧
    (∀ (fuel : Nat) (errs warns : List String),
       objLoop fuel [] ⟨c9Tokens, 4, errs, warns⟩ =
         (Except.error "out of fuel",
          ⟨c9Tokens, 4,
           errs ++ List.replicate fuel "Expected property name in object literal",
           warns⟩)) ∧
    (∀ (fuel : Nat) (errs warns : List String),
       parseObjectLiteral (fuel + 1) ⟨c9Tokens, 3, errs, warns⟩ =
         (Except.error "out of fuel",
          ⟨c9Tokens, 4,
           errs ++ List.replicate fuel "Expected property name in object literal",
           warns⟩)) := by
  refine ⟨by decide, objLoop_stuck, ?_⟩
  intro fuel errs warns
  have hg : c9Tokens.getD 3 oobToken = ⟨"BRACKET", "\x7b", 8⟩ := rfl
  rw [parseObjectLiteral_succ]
  simp only [bind_apply, consumeTV_apply, consumeAny_apply, hg,
    String.reduceBEq, beq_self_eq_true, Bool.and_self, Bool.and_true,
    Bool.true_and, Bool.not_true, Bool.not_false, Bool.false_eq_true,
    if_true, if_false]
  rw [objLoop_stuck]

/-- A `PUNCTUATION` match is one of the five class characters `[.,;()]`;
in particular its text is never `":"`. -/
theorem matchFirst_punct_colon {s : List Char} {ig : Bool} {l : List Char}
    (h : matchFirst s = some ("PUNCTUATION", ig, l)) :
    (String.mk l == ":") = false := by
  unfold matchFirst at h
  split at h
  · simp at h
  split at h
  · simp at h
  split at h
  · simp at h
  split at h
  · simp at h
  split at h
  · simp at h
  split at h
  · simp at h
  split at h
  · rename_i lp heq
    simp only [Option.some.injEq, Prod.mk.injEq, true_and] at h
    obtain ⟨-, hl⟩ := h
    subst hl
    unfold matchPunct at heq
    split at heq
    · split at heq
      · rename_i hcond
        cases heq
        simp only [Bool.or_eq_true, beq_iff_eq] at hcond
        rcases hcond with ((((rfl | rfl) | rfl) | rfl) | rfl) <;> decide
      · exact absurd heq (by simp)
    · exact absurd heq (by simp)
  split at h
  · simp at h
  split at h
  · simp at h
  split at h
  · simp at h
  · simp at h

/-- No token emitted by the scanning loop is a `PUNCTUATION` with value
`":"`. -/
theorem tokenizeAux_no_punct_colon :
    ∀ (fuel : Nat) (rem : List Char) (pos : Nat) (t : Token),
      t ∈ (tokenizeAux fuel rem pos).1 →
      (t.type == "PUNCTUATION" && t.value == ":") = false := by
  intro fuel
  induction fuel with
  | zero =>
    intro rem pos t ht
    cases rem <;> simp [tokenizeAux] at ht
  | succ fuel ih =>
    intro rem pos t ht
    match rem with
    | [] => simp [tokenizeAux] at ht
    | c :: rest =>
      rw [tokenizeAux] at ht
      cases hm : matchFirst (c :: rest) with
      | none =>
        rw [hm] at ht
        dsimp only at ht
        exact ih _ _ _ ht
      | some v =>
        obtain ⟨ty, ig, lex⟩ := v
        rw [hm] at ht
        dsimp only at ht
        cases ig with
        | true => exact ih _ _ _ ht
        | false =>
          simp only [Bool.false_eq_true, if_false] at ht
          rcases List.mem_cons.mp ht with rfl | ht2
          · dsimp only
            by_cases hty : ty = "PUNCTUATION"
            · subst hty
              have hv := matchFirst_punct_colon hm
              simp [hv]
            · have hne : (ty == "PUNCTUATION") = false := by
                simp [hty]
              simp [hne]
          · exact ih _ _ _ ht2

/-- C10.  The claim presumes the parser produces `SwitchStatement` nodes
with `case`/`default` clauses and reorders a leading `default` to the end.
The code disagrees at the component boundary: `:` belongs to the
`OPERATOR` rule (and to the unanchored `[?:]` alternative), while the
`PUNCTUATION` class is `[.,;()]`, so no lexer output ever contains a
`PUNCTUATION ":"` token (first conjunct) — yet `parseSwitchStatement`
requires `consume("PUNCTUATION", ":")` after every `case` test and after
`default`, a consume that must throw on any lexer-produced state (second
conjunct).  Hence no source program yields a switch with clauses, and the
claimed default-reordering of the emitter can never be observed; on the
program `switch (x) { default: }` (which also suffers `[?:]` phantom
tokens and lexes `default` as an `IDENTIFIER`, since `default` is missing
from the keyword list) compilation fails outright (third conjunct). -/
theorem claim_c10_colon_unreachable :
    (∀ (s : String) (t : Token), t ∈ (tokenize s).1 →
        (t.type == "PUNCTUATION" && t.value == ":") = false) ∧
    (∀ (st : PSt),
        (∀ t ∈ st.tokens, (t.type == "PUNCTUATION" && t.value == ":") = false) →
        ∃ e, (consumeTV "PUNCTUATION" ":" st).1 = Except.error e) ∧
    ((compile "switch (x) \x7b default: \x7d").success = false ∧
     (compile "switch (x) \x7b default: \x7d").errors =
       ["Expected token of type PUNCTUATION, but got OPERATOR",
        "Parse error: Expected token of type PUNCTUATION, but got OPERATOR"] ∧
     (tokenize "switch (x) \x7b default: \x7d").1 =
       [⟨"KEYWORD", "switch", 0⟩, ⟨"OPERATOR", ":", 6⟩, ⟨"OPERATOR", ":", 7⟩,
        ⟨"IDENTIFIER", "x", 8⟩, ⟨"OPERATOR", ":", 9⟩, ⟨"OPERATOR", ":", 10⟩,
        ⟨"OPERATOR", ":", 11⟩, ⟨"OPERATOR", ":", 12⟩,
        ⟨"IDENTIFIER", "default", 13⟩, ⟨"OPERATOR", ":", 20⟩,
        ⟨"BRACKET", "\x7d", 22⟩, ⟨"EOF", "", 23⟩]) := by
  refine ⟨?_, ?_, by decide, by decide, by decide⟩
  · intro s t ht
    unfold tokenize at ht
    dsimp only at ht
    rcases List.mem_append.mp ht with h1 | h1
    · exact tokenizeAux_no_punct_colon _ _ _ _ h1
    · rcases List.mem_singleton.mp h1 with rfl
      simp
  · intro st hst
    have hkey : ((st.tokens.getD st.cur oobToken).type == "PUNCTUATION" &&
        (st.tokens.getD st.cur oobToken).value == ":") = false := by
      rcases Nat.lt_or_ge st.cur st.tokens.length with hlt | hge
      · refine hst _ ?_
        rw [List.getD_eq_getElem _ _ hlt]
        exact List.getElem_mem _
      · rw [List.getD_eq_default _ _ hge]
        decide
    rw [consumeTV_apply]
    rcases hty : ((st.tokens.getD st.cur oobToken).type == "PUNCTUATION")
        with _ | _
    · simp only [hty, Bool.not_false, if_true]
      exact ⟨_, rfl⟩
    · rw [hty, Bool.true_and] at hkey
      simp only [hty, Bool.not_true, Bool.false_eq_true, if_false, hkey,
        Bool.not_false, if_true]
      exact ⟨_, rfl⟩

/-- C7 counterexample.  `var a = 1; - 2` and `var a = 1 - 2` differ only
in the trailing semicolon of the variable declaration, yet parse to
structurally different ASTs (two statements versus one declaration whose
initialiser is a subtraction), and the emitted code differs. -/
theorem claim_c7_counterexample :
    (compile "var a = 1; - 2").ast =
      some (AST.program
        [AST.variableDeclaration "var" "a"
           (some (AST.literal (JsVal.num "1") none)),
         AST.expressionStatement
           (AST.unaryExpression "-" (AST.literal (JsVal.num "2") none))]) ∧
    (compile "var a = 1 - 2").ast =
      some (AST.program
        [AST.variableDeclaration "var" "a"
           (some (AST.binaryExpression "-"
              (AST.literal (JsVal.num "1") none)
              (AST.literal (JsVal.num "2") none)))]) ∧
    (compile "var a = 1; - 2").js ≠ (compile "var a = 1 - 2").js ∧
    (compile "var a = 1; - 2").errors = [] ∧
    (compile "var a = 1 - 2").errors = [] :=
  ⟨rfl, rfl, by decide, by decide, by decide⟩

set_option maxHeartbeats 2000000 in
/-- C7 amended.  For the five optional-semicolon statement forms
(variable declaration, expression statement, `return`, `break`,
`continue`), adding or removing the trailing semicolon yields the same
AST node with no ERROR, and the missing semicolon only appends the
corresponding `Missing semicolon …` WARNING — provided the token that
follows cannot continue the expression (its type is none of `OPERATOR`,
`PUNCTUATION`, `BRACKET`; for `break`/`continue` only `PUNCTUATION`
matters).  Without that proviso the claim is false: removing the
semicolon can merge the following tokens into the expression
(`claim_c7_counterexample`). -/
theorem claim_c7_amended :
    (∀ (n p0 p1 p2 p3 p4 : Nat) (kw x v : String) (t : Token)
       (rest : List Token) (errs warns : List String),
       (t.type == "OPERATOR") = false →
       (t.type == "PUNCTUATION") = false →
       (t.type == "BRACKET") = false →
       parseVariableDeclaration (n + 16)
         ⟨⟨"KEYWORD", kw, p0⟩ :: ⟨"IDENTIFIER", x, p1⟩ ::
          ⟨"OPERATOR", "=", p2⟩ :: ⟨"NUMBER", v, p3⟩ ::
          ⟨"PUNCTUATION", ";", p4⟩ :: t :: rest, 0, errs, warns⟩ =
         (Except.ok (AST.variableDeclaration kw x
            (some (AST.literal (JsVal.num v) none))),
          ⟨⟨"KEYWORD", kw, p0⟩ :: ⟨"IDENTIFIER", x, p1⟩ ::
           ⟨"OPERATOR", "=", p2⟩ :: ⟨"NUMBER", v, p3⟩ ::
           ⟨"PUNCTUATION", ";", p4⟩ :: t :: rest, 5, errs, warns⟩) ∧
       parseVariableDeclaration (n + 16)
         ⟨⟨"KEYWORD", kw, p0⟩ :: ⟨"IDENTIFIER", x, p1⟩ ::
          ⟨"OPERATOR", "=", p2⟩ :: ⟨"NUMBER", v, p3⟩ :: t :: rest,
          0, errs, warns⟩ =
         (Except.ok (AST.variableDeclaration kw x
            (some (AST.literal (JsVal.num v) none))),
          ⟨⟨"KEYWORD", kw, p0⟩ :: ⟨"IDENTIFIER", x, p1⟩ ::
           ⟨"OPERATOR", "=", p2⟩ :: ⟨"NUMBER", v, p3⟩ :: t :: rest,
           4, errs,
           warns ++ ["Missing semicolon after variable declaration for \x27" ++
             x ++ "\x27"]⟩)) ∧
    (∀ (n pv p1 : Nat) (v : String) (t : Token)
       (rest : List Token) (errs warns : List String),
       (t.type == "OPERATOR") = false →
       (t.type == "PUNCTUATION") = false →
       (t.type == "BRACKET") = false →
       parseStatement (n + 16)
         ⟨⟨"NUMBER", v, pv⟩ :: ⟨"PUNCTUATION", ";", p1⟩ :: t :: rest,
          0, errs, warns⟩ =
         (Except.ok (AST.expressionStatement (AST.literal (JsVal.num v) none)),
          ⟨⟨"NUMBER", v, pv⟩ :: ⟨"PUNCTUATION", ";", p1⟩ :: t :: rest,
           2, errs, warns⟩) ∧
       parseStatement (n + 16)
         ⟨⟨"NUMBER", v, pv⟩ :: t :: rest, 0, errs, warns⟩ =
         (Except.ok (AST.expressionStatement (AST.literal (JsVal.num v) none)),
          ⟨⟨"NUMBER", v, pv⟩ :: t :: rest, 1, errs,
           warns ++ ["Missing semicolon after expression"]⟩)) ∧
    (∀ (n p0 pv p2 : Nat) (v : String) (t : Token)
       (rest : List Token) (errs warns : List String),
       (t.type == "OPERATOR") = false →
       (t.type == "PUNCTUATION") = false →
       (t.type == "BRACKET") = false →
       parseReturnStatement (n + 16)
         ⟨⟨"KEYWORD", "return", p0⟩ :: ⟨"NUMBER", v, pv⟩ ::
          ⟨"PUNCTUATION", ";", p2⟩ :: t :: rest, 0, errs, warns⟩ =
         (Except.ok (AST.returnStatement
            (some (AST.literal (JsVal.num v) none))),
          ⟨⟨"KEYWORD", "return", p0⟩ :: ⟨"NUMBER", v, pv⟩ ::
           ⟨"PUNCTUATION", ";", p2⟩ :: t :: rest, 3, errs, warns⟩) ∧
       parseReturnStatement (n + 16)
         ⟨⟨"KEYWORD", "return", p0⟩ :: ⟨"NUMBER", v, pv⟩ :: t :: rest,
          0, errs, warns⟩ =
         (Except.ok (AST.returnStatement
            (some (AST.literal (JsVal.num v) none))),
          ⟨⟨"KEYWORD", "return", p0⟩ :: ⟨"NUMBER", v, pv⟩ :: t :: rest,
           2, errs, warns ++ ["Missing semicolon after return statement"]⟩)) ∧
    (∀ (p0 p1 : Nat) (t : Token) (rest : List Token) (errs warns : List String),
       (t.type == "PUNCTUATION") = false →
       parseBreakStatement
         ⟨⟨"KEYWORD", "break", p0⟩ :: ⟨"PUNCTUATION", ";", p1⟩ :: t :: rest,
          0, errs, warns⟩ =
         (Except.ok AST.breakStatement,
          ⟨⟨"KEYWORD", "break", p0⟩ :: ⟨"PUNCTUATION", ";", p1⟩ :: t :: rest,
           2, errs, warns⟩) ∧
       parseBreakStatement
         ⟨⟨"KEYWORD", "break", p0⟩ :: t :: rest, 0, errs, warns⟩ =
         (Except.ok AST.breakStatement,
          ⟨⟨"KEYWORD", "break", p0⟩ :: t :: rest, 1, errs,
           warns ++ ["Missing semicolon after break statement"]⟩)) ∧
    (∀ (p0 p1 : Nat) (t : Token) (rest : List Token) (errs warns : List String),
       (t.type == "PUNCTUATION") = false →
       parseContinueStatement
         ⟨⟨"KEYWORD", "continue", p0⟩ :: ⟨"PUNCTUATION", ";", p1⟩ :: t :: rest,
          0, errs, warns⟩ =
         (Except.ok AST.continueStatement,
          ⟨⟨"KEYWORD", "continue", p0⟩ :: ⟨"PUNCTUATION", ";", p1⟩ :: t :: rest,
           2, errs, warns⟩) ∧
       parseContinueStatement
         ⟨⟨"KEYWORD", "continue", p0⟩ :: t :: rest, 0, errs, warns⟩ =
         (Except.ok AST.continueStatement,
          ⟨⟨"KEYWORD", "continue", p0⟩ :: t :: rest, 1, errs,
           warns ++ ["Missing semicolon after continue statement"]⟩)) := by
  refine ⟨?_, ?_, ?_, ?_, ?_⟩
  · intro n p0 p1 p2 p3 p4 kw x v t rest errs warns h1 h2 h3
    constructor
    · simp only [parseVariableDeclaration_succ, parseExpression_succ,
        parseAssignment_succ, parseLogicalOr_succ, orLoop_succ,
        parseLogicalAnd_succ, andLoop_succ, parseEquality_succ, eqLoop_succ,
        parseComparison_succ, cmpLoop_succ, parseAdditive_succ, addLoop_succ,
        parseMultiplicative_succ, mulLoop_succ, parseUnary_succ,
        parseCallOrMember_succ, comLoop_succ, parsePrimary_succ,
        bind_apply, pure_apply, peekP_apply, matchT_apply, matchTV_apply,
        consumeAny_apply, consumeT_apply, consumeTV_apply, throwP_apply,
        addErrorP_apply, addWarningP_apply, tryCatchP_apply,
        List.getD_cons_zero, List.getD_cons_succ, h1, h2, h3,
        String.reduceBEq, List.contains_cons, List.contains_nil,
        Bool.false_and, Bool.and_false, Bool.true_and, Bool.and_true,
        Bool.false_or, Bool.or_false, Bool.true_or, Bool.or_true, Bool.or_self,
        Bool.not_true, Bool.not_false,
        Bool.false_eq_true, eq_self_iff_true, if_true, if_false,
        beq_self_eq_true]
    · simp only [parseVariableDeclaration_succ, parseExpression_succ,
        parseAssignment_succ, parseLogicalOr_succ, orLoop_succ,
        parseLogicalAnd_succ, andLoop_succ, parseEquality_succ, eqLoop_succ,
        parseComparison_succ, cmpLoop_succ, parseAdditive_succ, addLoop_succ,
        parseMultiplicative_succ, mulLoop_succ, parseUnary_succ,
        parseCallOrMember_succ, comLoop_succ, parsePrimary_succ,
        bind_apply, pure_apply, peekP_apply, matchT_apply, matchTV_apply,
        consumeAny_apply, consumeT_apply, consumeTV_apply, throwP_apply,
        addErrorP_apply, addWarningP_apply, tryCatchP_apply,
        List.getD_cons_zero, List.getD_cons_succ, h1, h2, h3,
        String.reduceBEq, List.contains_cons, List.contains_nil,
        Bool.false_and, Bool.and_false, Bool.true_and, Bool.and_true,
        Bool.false_or, Bool.or_false, Bool.true_or, Bool.or_true, Bool.or_self,
        Bool.not_true, Bool.not_false,
        Bool.false_eq_true, eq_self_iff_true, if_true, if_false,
        beq_self_eq_true]
  · intro n pv p1 v t rest errs warns h1 h2 h3
    constructor
    · simp only [parseStatement_succ, parseExpression_succ,
        parseAssignment_succ, parseLogicalOr_succ, orLoop_succ,
        parseLogicalAnd_succ, andLoop_succ, parseEquality_succ, eqLoop_succ,
        parseComparison_succ, cmpLoop_succ, parseAdditive_succ, addLoop_succ,
        parseMultiplicative_succ, mulLoop_succ, parseUnary_succ,
        parseCallOrMember_succ, comLoop_succ, parsePrimary_succ,
        bind_apply, pure_apply, peekP_apply, matchT_apply, matchTV_apply,
        consumeAny_apply, consumeT_apply, consumeTV_apply, throwP_apply,
        addErrorP_apply, addWarningP_apply, tryCatchP_apply,
        List.getD_cons_zero, List.getD_cons_succ, h1, h2, h3,
        String.reduceBEq, List.contains_cons, List.contains_nil,
        Bool.false_and, Bool.and_false, Bool.true_and, Bool.and_true,
        Bool.false_or, Bool.or_false, Bool.true_or, Bool.or_true, Bool.or_self,
        Bool.not_true, Bool.not_false,
        Bool.false_eq_true, eq_self_iff_true, if_true, if_false,
        beq_self_eq_true]
    · simp only [parseStatement_succ, parseExpression_succ,
        parseAssignment_succ, parseLogicalOr_succ, orLoop_succ,
        parseLogicalAnd_succ, andLoop_succ, parseEquality_succ, eqLoop_succ,
        parseComparison_succ, cmpLoop_succ, parseAdditive_succ, addLoop_succ,
        parseMultiplicative_succ, mulLoop_succ, parseUnary_succ,
        parseCallOrMember_succ, comLoop_succ, parsePrimary_succ,
        bind_apply, pure_apply, peekP_apply, matchT_apply, matchTV_apply,
        consumeAny_apply, consumeT_apply, consumeTV_apply, throwP_apply,
        addErrorP_apply, addWarningP_apply, tryCatchP_apply,
        List.getD_cons_zero, List.getD_cons_succ, h1, h2, h3,
        String.reduceBEq, List.contains_cons, List.contains_nil,
        Bool.false_and, Bool.and_false, Bool.true_and, Bool.and_true,
        Bool.false_or, Bool.or_false, Bool.true_or, Bool.or_true, Bool.or_self,
        Bool.not_true, Bool.not_false,
        Bool.false_eq_true, eq_self_iff_true, if_true, if_false,
        beq_self_eq_true]
  · intro n p0 pv p2 v t rest errs warns h1 h2 h3
    constructor
    · simp only [parseReturnStatement_succ, parseExpression_succ,
        parseAssignment_succ, parseLogicalOr_succ, orLoop_succ,
        parseLogicalAnd_succ, andLoop_succ, parseEquality_succ, eqLoop_succ,
        parseComparison_succ, cmpLoop_succ, parseAdditive_succ, addLoop_succ,
        parseMultiplicative_succ, mulLoop_succ, parseUnary_succ,
        parseCallOrMember_succ, comLoop_succ, parsePrimary_succ,
        bind_apply, pure_apply, peekP_apply, matchT_apply, matchTV_apply,
        consumeAny_apply, consumeT_apply, consumeTV_apply, throwP_apply,
        addErrorP_apply, addWarningP_apply, tryCatchP_apply,
        List.getD_cons_zero, List.getD_cons_succ, h1, h2, h3,
        String.reduceBEq, List.contains_cons, List.contains_nil,
        Bool.false_and, Bool.and_false, Bool.true_and, Bool.and_true,
        Bool.false_or, Bool.or_false, Bool.true_or, Bool.or_true, Bool.or_self,
        Bool.not_true, Bool.not_false,
        Bool.false_eq_true, eq_self_iff_true, if_true, if_false,
        beq_self_eq_true]
    · simp only [parseReturnStatement_succ, parseExpression_succ,
        parseAssignment_succ, parseLogicalOr_succ, orLoop_succ,
        parseLogicalAnd_succ, andLoop_succ, parseEquality_succ, eqLoop_succ,
        parseComparison_succ, cmpLoop_succ, parseAdditive_succ, addLoop_succ,
        parseMultiplicative_succ, mulLoop_succ, parseUnary_succ,
        parseCallOrMember_succ, comLoop_succ, parsePrimary_succ,
        bind_apply, pure_apply, peekP_apply, matchT_apply, matchTV_apply,
        consumeAny_apply, consumeT_apply, consumeTV_apply, throwP_apply,
        addErrorP_apply, addWarningP_apply, tryCatchP_apply,
        List.getD_cons_zero, List.getD_cons_succ, h1, h2, h3,
        String.reduceBEq, List.contains_cons, List.contains_nil,
        Bool.false_and, Bool.and_false, Bool.true_and, Bool.and_true,
        Bool.false_or, Bool.or_false, Bool.true_or, Bool.or_true, Bool.or_self,
        Bool.not_true, Bool.not_false,
        Bool.false_eq_true, eq_self_iff_true, if_true, if_false,
        beq_self_eq_true]
  · intro p0 p1 t rest errs warns h2
    constructor
    · simp only [parseBreakStatement, bind_apply, pure_apply, peekP_apply,
        matchT_apply, matchTV_apply, consumeAny_apply, consumeT_apply,
        consumeTV_apply, addWarningP_apply,
        List.getD_cons_zero, List.getD_cons_succ, h2,
        String.reduceBEq, Bool.false_and, Bool.and_false, Bool.true_and,
        Bool.and_true, Bool.not_true, Bool.not_false,
        Bool.false_eq_true, eq_self_iff_true, if_true,
        if_false, beq_self_eq_true]
    · simp only [parseBreakStatement, bind_apply, pure_apply, peekP_apply,
        matchT_apply, matchTV_apply, consumeAny_apply, consumeT_apply,
        consumeTV_apply, addWarningP_apply,
        List.getD_cons_zero, List.getD_cons_succ, h2,
        String.reduceBEq, Bool.false_and, Bool.and_false, Bool.true_and,
        Bool.and_true, Bool.not_true, Bool.not_false,
        Bool.false_eq_true, eq_self_iff_true, if_true,
        if_false, beq_self_eq_true]
  · intro p0 p1 t rest errs warns h2
    constructor
    · simp only [parseContinueStatement, bind_apply, pure_apply, peekP_apply,
        matchT_apply, matchTV_apply, consumeAny_apply, consumeT_apply,
        consumeTV_apply, addWarningP_apply,
        List.getD_cons_zero, List.getD_cons_succ, h2,
        String.reduceBEq, Bool.false_and, Bool.and_false, Bool.true_and,
        Bool.and_true, Bool.not_true, Bool.not_false,
        Bool.false_eq_true, eq_self_iff_true, if_true,
        if_false, beq_self_eq_true]
    · simp only [parseContinueStatement, bind_apply, pure_apply, peekP_apply,
        matchT_apply, matchTV_apply, consumeAny_apply, consumeT_apply,
        consumeTV_apply, addWarningP_apply,
        List.getD_cons_zero, List.getD_cons_succ, h2,
        String.reduceBEq, Bool.false_and, Bool.and_false, Bool.true_and,
        Bool.and_true, Bool.not_true, Bool.not_false,
        Bool.false_eq_true, eq_self_iff_true, if_true,
        if_false, beq_self_eq_true]

theorem claim_c7_witness :
    parseVariableDeclaration 16
      ⟨[⟨"KEYWORD", "var", 0⟩, ⟨"IDENTIFIER", "a", 4⟩, ⟨"OPERATOR", "=", 6⟩,
        ⟨"NUMBER", "1", 8⟩, ⟨"EOF", "", 9⟩], 0, [], []⟩ =
      (Except.ok (AST.variableDeclaration "var" "a"
         (some (AST.literal (JsVal.num "1") none))),
       ⟨[⟨"KEYWORD", "var", 0⟩, ⟨"IDENTIFIER", "a", 4⟩, ⟨"OPERATOR", "=", 6⟩,
         ⟨"NUMBER", "1", 8⟩, ⟨"EOF", "", 9⟩], 4, [],
        ["Missing semicolon after variable declaration for \x27a\x27"]⟩) :=
  (claim_c7_amended.1 0 0 4 6 8 9 "var" "a" "1" ⟨"EOF", "", 9⟩ [] [] []
     (by decide) (by decide) (by decide)).2

end SaaamCompiler
